import Mathlib

/-!
Verification of the generic Netlink message codec (pyroute2/netlink/generic.py).

This file gives a shallow embedding of the codec engine in Lean 4 and proves
or refutes the frozen claims about it.  The embedding follows the Python
source closely:

* byte buffers (`io.BytesIO`) become `IOBuf`, a byte list plus a cursor;
  reading past the end returns fewer bytes, writing past the end pads the
  gap with zero bytes, exactly as `io.BytesIO` does;
* `struct` format tokens become `FmtTok`; native byte order is modelled as
  little-endian (the spec fixes "little-endian on common Linux");
* Python values flowing through the codec become `PyVal`; the
  `NotInitialized` sentinel is the constructor `PyVal.notInit`, and a node
  stored as an attribute value becomes `PyVal.nodeV`;
* Python exceptions relevant to the engine become `PyErr`; the three
  engine error classes are `headerDecodeError`, `dataDecodeError` and
  `nlaDecodeError`, each swallowing the underlying cause exactly as the
  wrapping `raise` statements in `nlmsg_base.decode` do;
* the dynamic class dispatch over `nla_map` becomes a closed universe
  `AtomTag` of the atom classes used by the in-scope families.  All
  `nla_map` entries of the source file resolve to atom classes whose own
  `nla_map` is empty, so the decode/encode recursion is one level deep and
  is embedded as `decodeNoNla`/`encodeNoNla` (atoms, headers) under
  `decodeFull`/`encodeFull` (messages).  `ipaddr` and `l2addr` delegate to
  the socket library, which is outside the codec; no claim touches them and
  they are not in the universe.

`pack = 'struct'` is `None` for every class in the source file, so the
per-field decode path is the one embedded here.  The thunk branch for
method-valued `nla_map` entries (`types.MethodType`) is dead in this file —
every entry names a class — and is not modelled.
-/

/-- Python exceptions that the codec can raise or wrap.  `structError` is
`struct.error`, `indexError`/`keyError`/`typeError` are the builtin
exceptions, and the three `*DecodeError`s are the engine's own wrappers
(`NetlinkHeaderDecodeError`, `NetlinkDataDecodeError`,
`NetlinkNLADecodeError`). -/
inductive PyErr : Type where
  | structError : PyErr
  | indexError : PyErr
  | keyError : PyErr
  | typeError : PyErr
  | headerDecodeError : PyErr
  | dataDecodeError : PyErr
  | nlaDecodeError : PyErr
deriving DecidableEq

/-- Python values flowing through the codec: ints, byte strings, text
strings, `None`, the `NotInitialized` sentinel and (for attribute values of
complex NLAs, and for the encoded object appended by `encode_nlas`) a
message node, represented by its dict of field values and its optional
header dict. -/
inductive PyVal : Type where
  | pyNone : PyVal
  | int (n : Int) : PyVal
  | bytes (bs : List Nat) : PyVal
  | str (s : String) : PyVal
  | notInit : PyVal
  | nodeV (vals : List (String × PyVal)) (header : Option (List (String × PyVal))) : PyVal

/-- A seekable byte buffer: `io.BytesIO`.  `data` is the current content
(one `Nat` per byte, values are below 256 for buffers built by the codec),
`pos` the cursor. -/
structure IOBuf : Type where
  data : List Nat
  pos : Nat
deriving DecidableEq

/-- `buf.tell()`. -/
def IOBuf.tell (b : IOBuf) : Nat := b.pos

/-- `buf.read(n)`: returns up to `n` bytes from the cursor and advances the
cursor by the number of bytes actually returned. -/
def IOBuf.read (b : IOBuf) (n : Nat) : List Nat × IOBuf :=
  let chunk := (b.data.drop b.pos).take n
  (chunk, { b with pos := b.pos + chunk.length })

/-- `buf.seek(p)` (absolute).  `io.BytesIO` allows seeking past the end. -/
def IOBuf.seekAbs (b : IOBuf) (p : Nat) : IOBuf := { b with pos := p }

/-- `buf.seek(n, 1)` (relative, forward — the only relative seek the codec
performs, in `reserve`). -/
def IOBuf.seekRel (b : IOBuf) (n : Nat) : IOBuf := { b with pos := b.pos + n }

/-- `buf.write(bs)`: overwrite at the cursor, extending the buffer and
zero-filling any gap between the old end and the cursor, as `io.BytesIO`
does. -/
def IOBuf.write (b : IOBuf) (bs : List Nat) : IOBuf :=
  let padded := b.data ++ List.replicate (b.pos - b.data.length) 0
  { data := padded.take b.pos ++ bs ++ padded.drop (b.pos + bs.length),
    pos := b.pos + bs.length }

/-- `NLMSG_ALIGNTO`. -/
def NLMSG_ALIGNTO : Nat := 4

/-- `NLMSG_ALIGN(l) = (l + NLMSG_ALIGNTO - 1) & ~(NLMSG_ALIGNTO - 1)`.
For nonnegative `l` the bit mask clears the two low bits, which is
`(l + 3) / 4 * 4`. -/
def NLMSG_ALIGN (l : Nat) : Nat := (l + (NLMSG_ALIGNTO - 1)) / NLMSG_ALIGNTO * NLMSG_ALIGNTO

/-- `struct` format tokens used by the engine: `B H I Q` (unsigned
8/16/32/64), the runtime-sized tokens `s` and `z`, and a fixed-size byte
token `'ns'` (used by field declarations such as `'16s'` and `'=6s'`, and
as the replacement `'%is'` built at run time for `s`/`z`). -/
inductive FmtTok : Type where
  | fB : FmtTok
  | fH : FmtTok
  | fI : FmtTok
  | fQ : FmtTok
  | fS : FmtTok
  | fZ : FmtTok
  | fN (n : Nat) : FmtTok
deriving DecidableEq

/-- `struct.calcsize` for a single token.  `'s'` counts as one byte; the
`z` token is never passed to `calcsize` by the engine (it is replaced
before the call), and no header class declares one. -/
def FmtTok.calcsize : FmtTok → Nat
  | .fB => 1
  | .fH => 2
  | .fI => 4
  | .fQ => 8
  | .fS => 1
  | .fZ => 0
  | .fN n => n

/-- Total size of a field block: `sum(struct.calcsize(fmt))`, as computed
by `get_size` and `reserve`. -/
def sizeOfFields (flds : List (String × FmtTok)) : Nat :=
  (flds.map (fun f => f.2.calcsize)).sum

/-- Little-endian unsigned integer of a byte list. -/
def leUnpack (bs : List Nat) : Nat := bs.foldr (fun b acc => b + 256 * acc) 0

/-- `struct.unpack` of one token from a byte string of exactly the token's
size: integers are native (little-endian) unsigned, `'ns'` yields the raw
bytes. -/
def structUnpack1 (fmt : FmtTok) (raw : List Nat) : PyVal :=
  match fmt with
  | .fN _ => .bytes raw
  | _ => .int (leUnpack raw)

/-- `struct.pack` of one token.  Out-of-range or wrongly-typed values raise
`struct.error`; `'ns'` pads short byte strings with zero bytes and
truncates long ones, as `struct` does. -/
def structPack1 (fmt : FmtTok) (v : PyVal) : Except PyErr (List Nat) :=
  match fmt, v with
  | .fB, .int n =>
    if 0 ≤ n ∧ n < 256 then .ok [n.toNat] else .error .structError
  | .fH, .int n =>
    if 0 ≤ n ∧ n < 65536 then .ok [n.toNat % 256, n.toNat / 256] else .error .structError
  | .fI, .int n =>
    if 0 ≤ n ∧ n < 4294967296 then
      .ok [n.toNat % 256, n.toNat / 256 % 256, n.toNat / 65536 % 256, n.toNat / 16777216]
    else .error .structError
  | .fQ, .int n =>
    if 0 ≤ n ∧ n < 18446744073709551616 then
      .ok [n.toNat % 256, n.toNat / 256 % 256, n.toNat / 65536 % 256,
           n.toNat / 16777216 % 256, n.toNat / 4294967296 % 256,
           n.toNat / 1099511627776 % 256, n.toNat / 281474976710656 % 256,
           n.toNat / 72057594037927936]
    else .error .structError
  | .fN k, .bytes bs => .ok (bs.take k ++ List.replicate (k - bs.length) 0)
  | _, _ => .error .structError

/-- Lower-case hex digit. -/
def hexDigit (n : Nat) : Char := if n < 10 then Char.ofNat (48 + n) else Char.ofNat (87 + n)

/-- Two-digit lower-case hex of one byte. -/
def byteHex (b : Nat) : String := String.mk [hexDigit (b / 16 % 16), hexDigit (b % 16)]

/-- Modelled from the spec: `hexdump` lives in `pyroute2.common`, which is
not under `src/`.  The spec describes its output as a human-readable hex
dump of the payload (a "hex blob"/"hex string"); it is modelled as
colon-separated two-digit lower-case hex, one group per byte, the
presentation format the spec uses for byte strings. -/
def hexdump (bs : List Nat) : String := String.intercalate ":" (bs.map byteHex)

/-- UTF-8 encoding of one code point (standard layout). -/
def utf8EncodeChar (c : Nat) : List Nat :=
  if c < 128 then [c]
  else if c < 2048 then [192 + c / 64, 128 + c % 64]
  else if c < 65536 then [224 + c / 4096, 128 + c / 64 % 64, 128 + c % 64]
  else [240 + c / 262144, 128 + c / 4096 % 64, 128 + c / 64 % 64, 128 + c % 64]

/-- `bytes(s, 'utf-8')`. -/
def strToBytes (s : String) : List Nat := (s.data.map Char.toNat).flatMap utf8EncodeChar

/-- Is `c` a UTF-8 continuation byte? -/
def utf8Cont (c : Nat) : Bool := 128 ≤ c && c < 192

/-- `bytes.decode('utf-8')`: standard UTF-8 validation and decoding to code
points (continuation-byte, overlong and surrogate checks included);
`Option.none` is `UnicodeDecodeError`. -/
def utf8Decode : List Nat → Option (List Nat)
  | [] => some []
  | b :: rest =>
    if b < 128 then (utf8Decode rest).map (fun t => b :: t)
    else if b < 194 then none
    else if b < 224 then
      match rest with
      | c1 :: rest1 =>
        if utf8Cont c1 then (utf8Decode rest1).map (fun t => ((b - 192) * 64 + (c1 - 128)) :: t)
        else none
      | [] => none
    else if b < 240 then
      match rest with
      | c1 :: c2 :: rest2 =>
        if utf8Cont c1 && utf8Cont c2 && !(b == 224 && c1 < 160) && !(b == 237 && 160 ≤ c1) then
          (utf8Decode rest2).map
            (fun t => ((b - 224) * 4096 + (c1 - 128) * 64 + (c2 - 128)) :: t)
        else none
      | _ => none
    else if b < 245 then
      match rest with
      | c1 :: c2 :: c3 :: rest3 =>
        if utf8Cont c1 && utf8Cont c2 && utf8Cont c3 &&
            !(b == 240 && c1 < 144) && !(b == 244 && 144 ≤ c1) then
          (utf8Decode rest3).map
            (fun t => ((b - 240) * 262144 + (c1 - 128) * 4096 + (c2 - 128) * 64 + (c3 - 128)) :: t)
        else none
      | _ => none
    else none
termination_by l => l.length
decreasing_by all_goals (simp_all; try omega)

/-- Build a Lean string from decoded code points. -/
def strOfCodepoints (cps : List Nat) : String := String.mk (cps.map Char.ofNat)

/-- Dict lookup `d[k]` on the assoc-list model of a node's dict. -/
def lookupVal (l : List (String × PyVal)) (k : String) : Option PyVal :=
  match l with
  | [] => none
  | (k', v) :: rest => if k' = k then some v else lookupVal rest k

/-- Dict update `d[k] = v`: replace in place, else append (insertion
order preserved, as for a Python dict). -/
def setVal (l : List (String × PyVal)) (k : String) (v : PyVal) : List (String × PyVal) :=
  match l with
  | [] => [(k, v)]
  | (k', v') :: rest => if k' = k then (k, v) :: rest else (k', v') :: setVal rest k v

/-- Dict deletion `del d[k]`. -/
def delVal (l : List (String × PyVal)) (k : String) : List (String × PyVal) :=
  match l with
  | [] => []
  | (k', v') :: rest => if k' = k then rest else (k', v') :: delVal rest k

/-- End of `decode`: `if self['value'] is NotInitialized: del self['value']`. -/
def stripValue (l : List (String × PyVal)) : List (String × PyVal) :=
  match lookupVal l "value" with
  | some .notInit => delVal l "value"
  | _ => l

/-- `nlmsg_base.__init__`: every declared field starts at `0`
("FIXME: only for number values"), then `self['value'] = NotInitialized`
(overwriting a field named `value`, since the assignment comes later). -/
def initVals (flds : List (String × FmtTok)) : List (String × PyVal) :=
  setVal (flds.map (fun f => (f.1, PyVal.int 0))) "value" .notInit

/-- State of the field-block decode loop: the node's dict (under
construction) and the buffer cursor.  The buffer data never changes during
decode, so only the cursor is threaded. -/
structure FieldSt : Type where
  vals : List (String × PyVal)
  pos : Nat

/-- One iteration of the field loop of `nlmsg_base.decode` (lines 329-359).

For `s`/`z` the format is rebuilt at run time as `'%is' % (self.length - 4)`
(a negative count raises `struct.error` in Python, hence the guard), the
byte count actually read replaces the requested one ("FIXME: adjust string
size again"), and for `z` the trailing zero byte is cut — via `self[name][-1]`,
which raises `IndexError` on an empty byte string.  For fixed formats a
short read is silently ignored ("FIXME: log an error"), the bytes read
staying consumed. -/
def decodeFieldStep (data : List Nat) (selfLength : Nat) (st : FieldSt) (f : String × FmtTok) :
    Except PyErr FieldSt :=
  if f.2 = .fS ∨ f.2 = .fZ then
    if selfLength < 4 then .error .structError
    else
      let size := selfLength - 4
      let raw := (data.drop st.pos).take size
      if f.2 = .fZ then
        match raw with
        | [] => .error .indexError
        | _ :: _ =>
          let cut := if raw.getLastD 0 = 0 then raw.dropLast else raw
          .ok { vals := setVal st.vals f.1 (.bytes cut), pos := st.pos + raw.length }
      else .ok { vals := setVal st.vals f.1 (.bytes raw), pos := st.pos + raw.length }
  else
    let size := f.2.calcsize
    let raw := (data.drop st.pos).take size
    if raw.length = size then
      .ok { vals := setVal st.vals f.1 (structUnpack1 f.2 raw), pos := st.pos + raw.length }
    else
      .ok { vals := st.vals, pos := st.pos + raw.length }

/-- The field loop of `nlmsg_base.decode` over a whole field block. -/
def decodeFieldsLoop (data : List Nat) (selfLength : Nat) :
    List (String × FmtTok) → FieldSt → Except PyErr FieldSt
  | [], st => .ok st
  | f :: rest, st =>
    match decodeFieldStep data selfLength st f with
    | .error e => .error e
    | .ok st' => decodeFieldsLoop data selfLength rest st'

/-- `self['header'].decode()`: the header classes (`nla_header`,
`nlmsg_header`) are fields-only `nlmsg_base` subclasses, so their `decode`
specializes to: record the offset, run the field loop (the header node's
own `length` attribute is `0`, it was constructed from the buffer alone),
align the cursor to four bytes, and drop the untouched `value` key.  Any
exception is re-wrapped by the caller. -/
def decodeHeaderFields (hfs : List (String × FmtTok)) (data : List Nat) (pos0 : Nat) :
    Except PyErr (List (String × PyVal) × Nat) :=
  match decodeFieldsLoop data 0 hfs { vals := initVals hfs, pos := pos0 } with
  | .error e => .error e
  | .ok st => .ok (stripValue st.vals, NLMSG_ALIGN st.pos)

/-- Result of the header-and-fields part of `nlmsg_base.decode`:
the node's dict, the decoded header dict (if a header class is set), the
node's `offset`/`length` attributes, the `raw` snapshot and the cursor
after the four-byte alignment that precedes the NLA chain. -/
structure BaseRes : Type where
  vals : List (String × PyVal)
  headerVals : Option (List (String × PyVal))
  offset : Nat
  length : Nat
  raw : Option (List Nat)
  pos : Nat

/-- `nlmsg_base.decode`, steps 1-4 (lines 297-366): record `offset`;
decode the header, update `self.length = max(header['length'], 4)`,
snapshot `raw` as the `length`-byte slice at `offset` (clamped by the
buffer end, as `read` is) and restore the cursor — any fault here raises
`NetlinkHeaderDecodeError`; in debug mode overwrite the header dict's
`offset`/`length` diagnostics (the `class`/`raw` hexdump diagnostics are
write-only and omitted); then run the field loop — any fault raises
`NetlinkDataDecodeError`; finally align the cursor to four bytes.
`decodeBaseFields` is the tail of those steps from the field loop on,
shared by the with-header and headerless paths of `decodeBase` below. -/
def decodeBaseFields (flds : List (String × FmtTok)) (len : Nat)
    (hv : Option (List (String × PyVal))) (raw : Option (List Nat))
    (data : List Nat) (pos0 pos1 : Nat) : Except PyErr BaseRes :=
  match decodeFieldsLoop data len flds { vals := initVals flds, pos := pos1 } with
  | .error _ => .error .dataDecodeError
  | .ok st =>
    .ok { vals := st.vals, headerVals := hv, offset := pos0, length := len, raw := raw,
          pos := NLMSG_ALIGN st.pos }

/-- `nlmsg_base.decode`, the dispatch on the presence of a header class
preceding `decodeBaseFields`. -/
def decodeBase (hdr : Option (List (String × FmtTok))) (flds : List (String × FmtTok))
    (lengthInit : Nat) (debug : Bool) (data : List Nat) (pos0 : Nat) :
    Except PyErr BaseRes :=
  match hdr with
  | Option.none => decodeBaseFields flds lengthInit Option.none Option.none data pos0 pos0
  | Option.some hfs =>
    match decodeHeaderFields hfs data pos0 with
    | .error _ => .error .headerDecodeError
    | .ok (hv, posH) =>
      match lookupVal hv "length" with
      | Option.some (.int h) =>
        let len := (max h 4).toNat
        let raw := (data.drop pos0).take len
        let hv2 := if debug then setVal (setVal hv "offset" (.int pos0)) "length" (.int len)
                   else hv
        decodeBaseFields flds len (Option.some hv2) (Option.some raw) data pos0 posH
      | _ => .error .headerDecodeError

/-- `nlmsg_base.decode` for a class whose `nla_map` is empty (atoms,
headers): steps 1-4 and then the final `del self['value']` when the value
key was never set (`attrs`, always empty here, is likewise dropped). -/
def decodeNoNla (hdr : Option (List (String × FmtTok))) (flds : List (String × FmtTok))
    (lengthInit : Nat) (debug : Bool) (data : List Nat) (pos0 : Nat) :
    Except PyErr BaseRes :=
  match decodeBase hdr flds lengthInit debug data pos0 with
  | .error e => .error e
  | .ok r => .ok { r with vals := stripValue r.vals }

/-- The closed universe of atom classes reachable from the in-scope
`nla_map`s (`nlmsg_atoms`): `none`, `uint8`, `uint16`, `uint32`, `hex`,
`cdata`, `asciiz`. -/
inductive AtomTag : Type where
  | tnone : AtomTag
  | tuint8 : AtomTag
  | tuint16 : AtomTag
  | tuint32 : AtomTag
  | thex : AtomTag
  | tcdata : AtomTag
  | tasciiz : AtomTag
deriving DecidableEq

/-- The `fields` declaration of each atom class. -/
def atomFields : AtomTag → List (String × FmtTok)
  | .tnone => []
  | .tuint8 => [("value", .fB)]
  | .tuint16 => [("value", .fH)]
  | .tuint32 => [("value", .fI)]
  | .thex => [("value", .fS)]
  | .tcdata => [("value", .fS)]
  | .tasciiz => [("value", .fZ)]

/-- The value the decode loop stores for a successfully decoded child:
`nla.getvalue()` after the atom's `decode` override ran.

`none` sets `self.value = None`; `hex` sets `self.value`
to `hexdump(self['value'])` (a missing `value` key raises `KeyError`, which
the caller's blanket `except` catches); `asciiz` tries UTF-8 and keeps the
raw bytes on `UnicodeDecodeError`; the plain atoms (`uint8/16/32`,
`cdata`) have no override, so `getvalue` returns `self['value']` when the
key survived decode and the node itself when it did not (short read). -/
def atomPost (t : AtomTag) (r : BaseRes) : Except PyErr PyVal :=
  match t with
  | .tnone => .ok .pyNone
  | .tuint8 | .tuint16 | .tuint32 | .tcdata =>
    match lookupVal r.vals "value" with
    | Option.some v => .ok v
    | Option.none => .ok (.nodeV r.vals r.headerVals)
  | .thex =>
    match lookupVal r.vals "value" with
    | Option.some (.bytes bs) => .ok (.str (hexdump bs))
    | Option.some _ => .error .typeError
    | Option.none => .error .keyError
  | .tasciiz =>
    match lookupVal r.vals "value" with
    | Option.some (.bytes bs) =>
      .ok (match utf8Decode bs with
           | Option.some cps => .str (strOfCodepoints cps)
           | Option.none => .bytes bs)
    | Option.some _ => .error .typeError
    | Option.none => .error .keyError

/-- Decode one child attribute: construct the atom over the shared buffer
with the clamped `length` and run its `decode` (all atoms carry the 4-byte
`nla_header`; the header's wire `length` immediately replaces the passed
one, exactly as in the source), then apply the atom's override and read
off `getvalue()`. -/
def atomDecode (t : AtomTag) (data : List Nat) (pos : Nat) (length : Nat) (debug : Bool) :
    Except PyErr PyVal :=
  match decodeNoNla (Option.some [("length", .fH), ("type", .fH)]) (atomFields t)
      length debug data pos with
  | .error e => .error e
  | .ok r => atomPost t r

/-- `t_nla_map` lookup: the position in `nla_map` is the numeric attribute
type; the value is `(class, name)`. -/
def tLookup (m : List (String × AtomTag)) (ty : Nat) : Option (AtomTag × String) :=
  match m[ty]? with
  | Option.some (nm, c) => Option.some (c, nm)
  | Option.none => Option.none

/-- Outcome of one pass through the `while` loop of `decode_nlas`:
the loop condition failed (`done`), the header peek raised (`fail` —
`struct.unpack('HH', ...)` on fewer than four bytes), or the iteration
completed (`cont`), possibly appending an entry, with the cursor moved to
`init + NLMSG_ALIGN(length)`. -/
inductive NlaStep : Type where
  | done : NlaStep
  | fail (e : PyErr) : NlaStep
  | cont (entry : Option (List PyVal)) (next : Nat) : NlaStep

/-- The cursor position a `cont` step advances to. -/
def NlaStep.next? : NlaStep → Option Nat
  | .cont _ p => Option.some p
  | _ => Option.none

/-- The entry a `cont` step appends. -/
def NlaStep.entry? : NlaStep → Option (Option (List PyVal))
  | .cont e _ => Option.some e
  | _ => Option.none

/-- One iteration of `decode_nlas` (lines 542-586): peek the four-byte
attribute header `(length, type)` native-endian and rewind; clamp
`length = min(max(length, 4), self.length - tell + offset)`; if the type
is mapped, decode the child — on any child exception rewind and store
`hexdump` of the clamped-length raw bytes instead — and append
`[name, value]` (plus `type, length, offset` in debug mode); an unmapped
type appends nothing; unconditionally seek to `init + NLMSG_ALIGN(length)`. -/
def decodeNlasStep (tmap : List (String × AtomTag)) (debug : Bool) (data : List Nat)
    (offset nodeLen pos : Nat) : NlaStep :=
  if pos < offset + nodeLen then
    match (data.drop pos).take 4 with
    | [b0, b1, b2, b3] =>
      let length := min (max (b0 + 256 * b1) 4) (offset + nodeLen - pos)
      let ty := b2 + 256 * b3
      let entry : Option (List PyVal) :=
        match tLookup tmap ty with
        | Option.none => Option.none
        | Option.some (cls, name) =>
          let mv : PyVal :=
            match atomDecode cls data pos length debug with
            | .error _ => .str (hexdump ((data.drop pos).take length))
            | .ok v => v
          Option.some (if debug then [.str name, mv, .int ty, .int length, .int pos]
                       else [.str name, mv])
      .cont entry (pos + NLMSG_ALIGN length)
    | _ => .fail .structError
  else .done

/-- The `while` loop of `decode_nlas`, with explicit fuel.
`Option.none` means the fuel ran out; the termination theorem for claim C8
shows fuel `self.length + 1` always suffices, which is what `decodeFull`
passes. -/
def decodeNlasF : Nat → List (String × AtomTag) → Bool → List Nat → Nat → Nat →
    List (List PyVal) → Nat → Option (Except PyErr (List (List PyVal) × Nat))
  | 0, _, _, _, _, _, _, _ => Option.none
  | fuel + 1, tmap, debug, data, offset, nodeLen, acc, pos =>
    match decodeNlasStep tmap debug data offset nodeLen pos with
    | .done => Option.some (.ok (acc, pos))
    | .fail e => Option.some (.error e)
    | .cont entry pos' =>
      decodeNlasF fuel tmap debug data offset nodeLen (acc ++ entry.toList) pos'

/-- A decoded message node: the dict of field values, the header dict, the
`attrs` chain (`Option.none` when the key was deleted because no attribute
was decoded), the `value` dict key's fate being folded into `vals`, the
`self.value` attribute, the `raw` snapshot and the `offset`/`length`
attributes. -/
structure PNodeR : Type where
  vals : List (String × PyVal)
  headerVals : Option (List (String × PyVal))
  attrs : Option (List (List PyVal))
  valueAttr : PyVal
  raw : Option (List Nat)
  offset : Nat
  length : Nat

/-- `nlmsg_base.decode` in full, for a message class whose `nla_map`
children are atoms (every family in the source file): steps 1-4 via
`decodeBase`, then — only when `nla_map` is non-empty — the attribute
loop, any fault of which raises `NetlinkNLADecodeError`; finally the empty
`attrs` key and the untouched `value` key are deleted.  Returns the node
and the final cursor. -/
def decodeFull (hdr : Option (List (String × FmtTok))) (flds : List (String × FmtTok))
    (nmap : List (String × AtomTag)) (lengthInit : Nat) (debug : Bool)
    (data : List Nat) (pos0 : Nat) : Except PyErr (PNodeR × Nat) :=
  match decodeBase hdr flds lengthInit debug data pos0 with
  | .error e => .error e
  | .ok r =>
    let nlres : Except PyErr (List (List PyVal) × Nat) :=
      if nmap.isEmpty then .ok ([], r.pos)
      else
        match decodeNlasF (r.length + 1) nmap debug data r.offset r.length [] r.pos with
        | Option.some (.ok x) => .ok x
        | Option.some (.error _) => .error .nlaDecodeError
        | Option.none => .error .nlaDecodeError
    match nlres with
    | .error e => .error e
    | .ok (atts, pos2) =>
      .ok ({ vals := stripValue r.vals,
             headerVals := r.headerVals,
             attrs := if atts.isEmpty then Option.none else Option.some atts,
             valueAttr := .notInit,
             raw := r.raw, offset := r.offset, length := r.length }, pos2)

/-- A node as seen by `encode`: the dict of field values (including a
`value` key when set), the header sub-node's dict, the `attrs` key
(`Option.none` when the key was deleted — iterating it then raises
`KeyError`) and the `self.value` attribute. -/
structure ENodeR : Type where
  vals : List (String × PyVal)
  headerVals : Option (List (String × PyVal))
  attrs : Option (List (List PyVal))
  valueAttr : PyVal

/-- View a decoded node as input to `encode`. -/
def toENode (n : PNodeR) : ENodeR :=
  { vals := n.vals, headerVals := n.headerVals, attrs := n.attrs, valueAttr := n.valueAttr }

/-- `getvalue()`: `self.value` when a custom decoder set it, else
`self['value']` when the generic decoder set it, else the node itself
(`Option.none` here). -/
def getvalueE (n : ENodeR) : Option PyVal :=
  match n.valueAttr with
  | .notInit =>
    match lookupVal n.vals "value" with
    | Option.some .notInit => Option.none
    | Option.none => Option.none
    | Option.some v => Option.some v
  | v => Option.some v

/-- `setvalue(value)`: a dict argument is merged with `update` — that
branch only receives complex-NLA dicts, which no in-scope claim encodes,
and is left out of the universe; a plain value lands in `self['value']`
and `self.value`. -/
def setvalueE (n : ENodeR) (v : PyVal) : Except PyErr ENodeR :=
  match v with
  | .nodeV _ _ => .error .typeError
  | v => .ok { n with vals := setVal n.vals "value" v, valueAttr := v }

/-- `len(value)` as the encoder uses it on the raw field value (before the
UTF-8 coercion): characters of a `str`, bytes of a `bytes`; anything else
raises `TypeError`. -/
def pyLen : PyVal → Except PyErr Nat
  | .bytes bs => .ok bs.length
  | .str s => .ok s.length
  | _ => .error .typeError

/-- The Python-3 coercion in `encode`: a `str` value is replaced by its
UTF-8 bytes.  (The `float`-to-`int` branch has no counterpart: the model
carries no floats.) -/
def py3Coerce : PyVal → PyVal
  | .str s => .bytes (strToBytes s)
  | v => v

/-- One iteration of the field-pack loop of `nlmsg_base.encode` (lines
387-415): fetch `self[name]`; for `s` the format becomes
`'%is' % len(value)`, for `z` one more byte for the terminator; coerce;
`struct.pack` and append to the payload (a pack fault is logged and
re-raised). -/
def encodeFieldStep (vals : List (String × PyVal)) (payload : List Nat) (f : String × FmtTok) :
    Except PyErr (List Nat) :=
  match lookupVal vals f.1 with
  | Option.none => .error .keyError
  | Option.some value =>
    let fmtE : Except PyErr FmtTok :=
      match f.2 with
      | .fS => (pyLen value).map (fun l => .fN l)
      | .fZ => (pyLen value).map (fun l => .fN (l + 1))
      | fmt => .ok fmt
    match fmtE with
    | .error e => .error e
    | .ok fmt =>
      match structPack1 fmt (py3Coerce value) with
      | .error e => .error e
      | .ok chunk => .ok (payload ++ chunk)

/-- The whole field-pack loop: the payload bytes of the field block. -/
def encodeFields (flds : List (String × FmtTok)) (vals : List (String × PyVal)) :
    Except PyErr (List Nat) :=
  flds.foldlM (encodeFieldStep vals) []

/-- `self['header'].encode()`: the header classes are fields-only
subclasses with an empty `nla_map` and no header of their own, and a
header node's `getvalue()` returns the node itself (never `None`), so
their `encode` specializes to packing the field block and writing it plus
its alignment padding (zero for both standard headers, computed all the
same). -/
def encodeHeaderNode (hfs : List (String × FmtTok)) (hv : List (String × PyVal))
    (buf : IOBuf) : Except PyErr IOBuf :=
  match encodeFields hfs hv with
  | .error e => .error e
  | .ok payload =>
    let diff := NLMSG_ALIGN payload.length - payload.length
    .ok ((buf.write payload).write (List.replicate diff 0))

/-- `update_length(start, diff)` (lines 428-433): remember the cursor,
back-patch `self['header']['length'] = save - start - diff`, seek to
`start`, re-encode the header and restore the cursor. -/
def update_length (hfs : List (String × FmtTok)) (n : ENodeR) (start diff : Nat)
    (buf : IOBuf) : Except PyErr (ENodeR × IOBuf) :=
  let save := buf.pos
  match n.headerVals with
  | Option.none => .error .keyError
  | Option.some hv =>
    let hv2 := setVal hv "length" (.int ((save : Int) - (start : Int) - (diff : Int)))
    match encodeHeaderNode hfs hv2 (buf.seekAbs start) with
    | .error e => .error e
    | .ok buf3 => .ok ({ n with headerVals := Option.some hv2 }, buf3.seekAbs save)

/-- The field-block stage of `nlmsg_base.encode` (lines 378-419): reserve
`reserve` bytes of header space (a forward relative seek), skip the field
block when `getvalue()` is `None`, otherwise pack it, write it and pad it
to a four-byte multiple.  Returns the pad size `diff` and the buffer. -/
def encodeFieldBlock (reserve : Nat) (flds : List (String × FmtTok)) (n : ENodeR)
    (buf : IOBuf) : Except PyErr (Nat × IOBuf) :=
  match getvalueE n with
  | Option.some .pyNone => .ok (0, buf.seekRel reserve)
  | _ =>
    match encodeFields flds n.vals with
    | .error e => .error e
    | .ok payload =>
      let diff := NLMSG_ALIGN payload.length - payload.length
      .ok (diff, ((buf.seekRel reserve).write payload).write (List.replicate diff 0))

/-- `nlmsg_base.encode` for a class whose `nla_map` is empty (atoms):
record `init = tell()`, run the field-block stage, and finally back-patch
the header length excluding `diff`. -/
def encodeNoNla (hdr : Option (List (String × FmtTok))) (flds : List (String × FmtTok))
    (n : ENodeR) (buf : IOBuf) : Except PyErr (ENodeR × IOBuf) :=
  match hdr with
  | Option.none =>
    match encodeFieldBlock 0 flds n buf with
    | .error e => .error e
    | .ok (_, buf2) => .ok (n, buf2)
  | Option.some hfs =>
    match encodeFieldBlock (sizeOfFields hfs) flds n buf with
    | .error e => .error e
    | .ok (diff, buf2) => update_length hfs n buf.pos diff buf2

/-- `r_nla_map` lookup: canonical name to `(class, numeric type)`.  Names
are unique in every in-scope `nla_map`, so first match is the dict
entry. -/
def rLookupGo : List (String × AtomTag) → Nat → String → Option (AtomTag × Nat)
  | [], _, _ => Option.none
  | (k, c) :: rest, i, name =>
    if k = name then Option.some (c, i) else rLookupGo rest (i + 1) name

/-- `name in self.r_nla_map` and the associated `(class, type)`. -/
def rLookup (nmap : List (String × AtomTag)) (name : String) : Option (AtomTag × Nat) :=
  rLookupGo nmap 0 name

/-- The encode overrides that preprocess `self['value']` before the
generic `encode`: `asciiz` turns a `str` into its UTF-8 bytes.  (`ipaddr`
and `l2addr`, which call into the socket library, are outside the
universe.) -/
def atomPre (t : AtomTag) (n : ENodeR) : ENodeR :=
  match t with
  | .tasciiz =>
    match lookupVal n.vals "value" with
    | Option.some (.str s) => { n with vals := setVal n.vals "value" (.bytes (strToBytes s)) }
    | _ => n
  | _ => n

/-- The 4-byte NLA header's field block. -/
def nla_header_fields : List (String × FmtTok) := [("length", .fH), ("type", .fH)]

/-- Encode one child attribute (`encode_nlas` body): construct the atom
over the shared buffer, set its header's `type`, `setvalue` the stored
value, run the atom's encode override and then the generic `encode`.
Returns the child node (the object appended back into the entry) and the
buffer. -/
def atomEncode (t : AtomTag) (ty : Nat) (v : PyVal) (buf : IOBuf) :
    Except PyErr (ENodeR × IOBuf) :=
  let hv := setVal (initVals nla_header_fields) "type" (.int ty)
  let n0 : ENodeR := { vals := initVals (atomFields t), headerVals := Option.some hv,
                       attrs := Option.some [], valueAttr := .notInit }
  match setvalueE n0 v with
  | .error e => .error e
  | .ok n1 => encodeNoNla (Option.some nla_header_fields) (atomFields t) (atomPre t n1) buf

/-- `encode_nlas` (lines 519-540): walk `self['attrs']` in order; an entry
whose name is not in `r_nla_map` is skipped silently; otherwise the child
is encoded (`except: raise` — child faults propagate) and the encoded
object is appended as the entry's third element (or replaces it; a debug
entry of five elements is left untouched). -/
def encodeNlasGo (nmap : List (String × AtomTag)) :
    List (List PyVal) → IOBuf → List (List PyVal) →
    Except PyErr (List (List PyVal) × IOBuf)
  | [], buf, acc => .ok (acc, buf)
  | i :: rest, buf, acc =>
    match i[0]? with
    | Option.none => .error .indexError
    | Option.some nameV =>
      match (match nameV with | PyVal.str s => rLookup nmap s | _ => Option.none) with
      | Option.none => encodeNlasGo nmap rest buf (acc ++ [i])
      | Option.some (cls, ty) =>
        match i[1]? with
        | Option.none => .error .indexError
        | Option.some v =>
          match atomEncode cls ty v buf with
          | .error e => .error e
          | .ok (child, buf') =>
            let encodedV := PyVal.nodeV child.vals child.headerVals
            let i' := if i.length = 2 then i ++ [encodedV]
                      else if i.length = 3 then i.set 2 encodedV else i
            encodeNlasGo nmap rest buf' (acc ++ [i'])

/-- The stages of `nlmsg_base.encode` before the header back-patch: the
field-block stage, then — when `nla_map` is non-empty — the reset of
`diff` to zero and the walk of the attribute chain (`self['attrs']`;
`KeyError` when the key was deleted).  Returns the node (its entries
updated by `encode_nlas`), the final `diff` and the buffer. -/
def encodeSteps (reserve : Nat) (flds : List (String × FmtTok))
    (nmap : List (String × AtomTag)) (n : ENodeR) (buf : IOBuf) :
    Except PyErr (ENodeR × Nat × IOBuf) :=
  match encodeFieldBlock reserve flds n buf with
  | .error e => .error e
  | .ok (diff, buf2) =>
    if nmap.isEmpty then .ok (n, diff, buf2)
    else
      match n.attrs with
      | Option.none => .error .keyError
      | Option.some atts =>
        match encodeNlasGo nmap atts buf2 [] with
        | .error e => .error e
        | .ok (atts', buf3) => .ok ({ n with attrs := Option.some atts' }, 0, buf3)

/-- `nlmsg_base.encode` in full (lines 377-426): reserve the header, pack
and pad the field block remembering the pad as `diff`, then — when
`nla_map` is non-empty — reset `diff` to zero and walk the attribute
chain (`encodeSteps` above; `self['attrs']` raises `KeyError` when the key
was deleted), and finally back-patch the header length. -/
def encodeFull (hdr : Option (List (String × FmtTok))) (flds : List (String × FmtTok))
    (nmap : List (String × AtomTag)) (n : ENodeR) (buf : IOBuf) :
    Except PyErr (ENodeR × IOBuf) :=
  match hdr with
  | Option.none =>
    match encodeSteps 0 flds nmap n buf with
    | .error e => .error e
    | .ok (n2, _, buf4) => .ok (n2, buf4)
  | Option.some hfs =>
    match encodeSteps (sizeOfFields hfs) flds nmap n buf with
    | .error e => .error e
    | .ok (n2, diff2, buf4) => update_length hfs n2 buf.pos diff2 buf4

/-- The `fmt_map` dict of `get_attrs`: `'raw'` selects the entry's second
element, `'encoded'` its third; any other key raises `KeyError` when
looked up. -/
def fmt_map (fmt : String) : Option Nat :=
  if fmt = "raw" then Option.some 1 else if fmt = "encoded" then Option.some 2 else Option.none

/-- Does the Python comparison `i[0] == attr` hold?  Entry heads written
by the engine are always strings; a non-string compares unequal. -/
def pyIsStrEq (v : PyVal) (s : String) : Bool :=
  match v with
  | .str t => t == s
  | _ => false

/-- The comprehension of `get_attrs`:
`[i[fmt_map[fmt]] for i in self['attrs'] if i[0] == attr]`, evaluated
left to right — `i[0]` on a malformed entry raises `IndexError`,
`fmt_map[fmt]` raises `KeyError` at the first matching entry, and
`i[fmt_map[fmt]]` raises `IndexError` when the entry is too short. -/
def getAttrsGo (attr fmt : String) : List (List PyVal) → Except PyErr (List PyVal)
  | [] => .ok []
  | i :: rest =>
    match i[0]? with
    | Option.none => .error .indexError
    | Option.some v =>
      if pyIsStrEq v attr then
        match fmt_map fmt with
        | Option.none => .error .keyError
        | Option.some idx =>
          match i[idx]? with
          | Option.none => .error .indexError
          | Option.some x => (getAttrsGo attr fmt rest).map (fun l => x :: l)
      else getAttrsGo attr fmt rest

/-- `get_attrs(attr, fmt)`: reads `self['attrs']` (`KeyError` when the key
was deleted) and runs the comprehension. -/
def get_attrs (attrsKey : Option (List (List PyVal))) (attr fmt : String) :
    Except PyErr (List PyVal) :=
  match attrsKey with
  | Option.none => .error .keyError
  | Option.some entries => getAttrsGo attr fmt entries

/-- `get_attr(attr, default, fmt)`: `KeyError` from `get_attrs` yields the
default; any other exception propagates; an empty hit list yields the
default, else the first hit. -/
def get_attr (attrsKey : Option (List (List PyVal))) (attr : String) (default : PyVal)
    (fmt : String) : Except PyErr PyVal :=
  match get_attrs attrsKey attr fmt with
  | .error .keyError => .ok default
  | .error e => .error e
  | .ok l => .ok (l.headD default)

/-- `get_encoded(attr, default)`. -/
def get_encoded (attrsKey : Option (List (List PyVal))) (attr : String) (default : PyVal) :
    Except PyErr PyVal :=
  get_attr attrsKey attr default "encoded"

/-- The 16-byte netlink message header's field block (`nlmsg_header`). -/
def nlmsg_header_fields : List (String × FmtTok) :=
  [("length", .fI), ("type", .fH), ("flags", .fH), ("sequence_number", .fI), ("pid", .fI)]

/-- `genlmsg.fields`: the generic-netlink family header. -/
def genlmsg_fields : List (String × FmtTok) :=
  [("cmd", .fB), ("version", .fB), ("reserved", .fH)]

/-- `ctrlmsg.nla_map`: the control-family attribute vocabulary. -/
def ctrlmsg_nla_map : List (String × AtomTag) :=
  [("CTRL_ATTR_UNSPEC", .tnone),
   ("CTRL_ATTR_FAMILY_ID", .tuint16),
   ("CTRL_ATTR_FAMILY_NAME", .tasciiz),
   ("CTRL_ATTR_VERSION", .thex),
   ("CTRL_ATTR_HDRSIZE", .thex),
   ("CTRL_ATTR_MAXATTR", .thex),
   ("CTRL_ATTR_OPS", .thex),
   ("CTRL_ATTR_MCAST_GROUPS", .thex)]

/-- Encode a node into a fresh buffer and return the produced bytes. -/
def encodedBytes (hdr : Option (List (String × FmtTok))) (flds : List (String × FmtTok))
    (nmap : List (String × AtomTag)) (n : ENodeR) : Except PyErr (List Nat) :=
  match encodeFull hdr flds nmap n { data := [], pos := 0 } with
  | .error e => .error e
  | .ok (_, buf) => .ok buf.data

/-- Decode a byte string as a `ctrlmsg`-like message and re-encode the
resulting node into a fresh buffer, returning the produced bytes: the
round-trip pipeline `encode(decode(b))` of the spec. -/
def roundTrip (hdr : Option (List (String × FmtTok))) (flds : List (String × FmtTok))
    (nmap : List (String × AtomTag)) (b : List Nat) : Except PyErr (List Nat) :=
  match decodeFull hdr flds nmap 0 false b 0 with
  | .error e => .error e
  | .ok (node, _) => encodedBytes hdr flds nmap (toENode node)

/-- The error of a decode outcome, if any. -/
def errOf (r : Except PyErr PyVal) : Option PyErr :=
  match r with
  | .error e => Option.some e
  | .ok _ => Option.none

/-- The byte-string value stored under the `value` key of a decode
outcome, if any. -/
def valueBytesOf (r : Except PyErr BaseRes) : Option (List Nat) :=
  match r with
  | .ok res =>
    match lookupVal res.vals "value" with
    | Option.some (.bytes bs) => Option.some bs
    | _ => Option.none
  | .error _ => Option.none

/-- The integer under the `length` key of the header dict of an encode
outcome, if any. -/
def headerLenIntOf (r : Except PyErr (ENodeR × IOBuf)) : Option Int :=
  match r with
  | .ok (n, _) =>
    match n.headerVals with
    | Option.some hv =>
      match lookupVal hv "length" with
      | Option.some (.int k) => Option.some k
      | _ => Option.none
    | Option.none => Option.none
  | .error _ => Option.none

/-- Spec-side reading of §6 lookup: the values of the attribute entries
whose name matches, in wire order.  Stated from the spec's words, to be
compared with `get_attrs`/`get_attr`. -/
def specAttrValues (entries : List (List PyVal)) (name : String) : List PyVal :=
  entries.filterMap (fun i =>
    match i with
    | PyVal.str nm :: v :: _ => if nm = name then Option.some v else Option.none
    | _ => Option.none)

/-- An attribute entry as the engine writes it: a name string followed by
a value (and possibly more elements). -/
def WfAttrEntry (i : List PyVal) : Prop :=
  ∃ nm v rest, i = PyVal.str nm :: v :: rest

/-- A `ctrlmsg` wire message carrying one `CTRL_ATTR_VERSION` attribute:
netlink header (length 28, type 16), generic header `cmd=1 version=2`, one
hex-coded attribute of wire length 8 with payload `01 02 03 04`.  A
well-formed message under the registered `ctrlmsg` schema. -/
def ctrlHexMsg : List Nat :=
  [28, 0, 0, 0, 16, 0, 0, 0, 0, 0, 0, 0, 0, 0, 0, 0, 1, 2, 0, 0, 8, 0, 3, 0, 1, 2, 3, 4]

/-- The §8 S1-shaped `ctrlmsg` wire message carrying one
`CTRL_ATTR_FAMILY_ID` attribute whose two payload bytes are `x` and `y`
(wire length 6 plus two zero padding bytes). -/
def s1msg (x y : Nat) : List Nat :=
  [28, 0, 0, 0, 16, 0, 0, 0, 0, 0, 0, 0, 0, 0, 0, 0, 1, 2, 0, 0, 6, 0, 1, 0, x, y, 0, 0]

/-- A `ctrlmsg` wire message whose single attribute is a
`CTRL_ATTR_FAMILY_NAME` (`asciiz`) of wire length 4, i.e. with an empty
payload: its child decode raises, exercising the per-attribute recovery. -/
def ctrlEmptyAsciizMsg : List Nat :=
  [24, 0, 0, 0, 16, 0, 0, 0, 0, 0, 0, 0, 0, 0, 0, 0, 1, 2, 0, 0, 4, 0, 2, 0]

/-- A buffer for the C4 counterexample: a 16-byte netlink header claiming
`length = 20`, followed by 16 more bytes. -/
def nlmsgSBuf : List Nat :=
  [20, 0, 0, 0, 0, 0, 0, 0, 0, 0, 0, 0, 0, 0, 0, 0,
   1, 2, 3, 4, 5, 6, 7, 8, 9, 10, 11, 12, 13, 14, 15, 16]

/-- A user node for the C3 counterexample: a class with the 4-byte NLA
header, a single one-byte field `f` (so the field block needs three
padding bytes) and a non-empty `nla_map`; the node carries one attribute. -/
def chainPadNode : ENodeR :=
  { vals := setVal (initVals [("f", .fB)]) "f" (.int 7),
    headerVals := Option.some (initVals nla_header_fields),
    attrs := Option.some [[.str "A", .int 5]],
    valueAttr := .notInit }


/-- Concrete input for the C6 witness: an 8-byte buffer whose NLA header
claims length 8. -/
def c6buf : List Nat := [8, 0, 1, 0, 9, 9, 9, 9]

/-- The header dict decoded from `c6buf`. -/
def c6hv : List (String × PyVal) := [("length", PyVal.int 8), ("type", PyVal.int 1)]

/-- The node decoded from `c6buf` by `decodeBase`. -/
def c6res : BaseRes :=
  { vals := [("value", PyVal.notInit)], headerVals := Option.some c6hv,
    offset := 0, length := 8, raw := Option.some c6buf, pos := 4 }


/-- The 16 bytes the `s` field of the C4 example actually consumes. -/
def c4payload : List Nat := [1, 2, 3, 4, 5, 6, 7, 8, 9, 10, 11, 12, 13, 14, 15, 16]

/-- The header dict decoded from `nlmsgSBuf`. -/
def c4hv : List (String × PyVal) :=
  [("length", PyVal.int 20), ("type", PyVal.int 0), ("flags", PyVal.int 0),
   ("sequence_number", PyVal.int 0), ("pid", PyVal.int 0)]

/-- The node decoded from `nlmsgSBuf` by `decodeBase`. -/
def c4res : BaseRes :=
  { vals := [("value", PyVal.bytes c4payload)], headerVals := Option.some c4hv,
    offset := 0, length := 20, raw := Option.some (nlmsgSBuf.take 20), pos := 32 }


/-- The node `encodeFull` returns for `chainPadNode`: the header length
was back-patched to 16 and the encoded child object was appended to the
attribute entry. -/
def c3resNode : ENodeR :=
  { vals := [("f", PyVal.int 7), ("value", PyVal.notInit)],
    headerVals := Option.some
      [("length", PyVal.int 16), ("type", PyVal.int 0), ("value", PyVal.notInit)],
    attrs := Option.some [[PyVal.str "A", PyVal.int 5,
      PyVal.nodeV [("value", PyVal.int 5)]
        (Option.some [("length", PyVal.int 5), ("type", PyVal.int 0),
                      ("value", PyVal.notInit)])]],
    valueAttr := PyVal.notInit }

/-- The buffer `encodeFull` returns for `chainPadNode`. -/
def c3resBuf : IOBuf :=
  { data := [16, 0, 0, 0, 7, 0, 0, 0, 5, 0, 0, 0, 5, 0, 0, 0], pos := 16 }


/-- Attribute entries with a duplicated name, as in scenario S6: two
`CTRL_ATTR_MCAST_GROUPS` entries around another attribute. -/
def s6entries : List (List PyVal) :=
  [[PyVal.str "CTRL_ATTR_MCAST_GROUPS", PyVal.str "g1"],
   [PyVal.str "CTRL_ATTR_FAMILY_ID", PyVal.int 1],
   [PyVal.str "CTRL_ATTR_MCAST_GROUPS", PyVal.str "g2"]]


/-- The attribute entries the non-debug decode of `ctrlHexMsg` appends:
one two-element entry. -/
def c10entries : List (List PyVal) :=
  [[PyVal.str "CTRL_ATTR_VERSION", PyVal.str "01:02:03:04"]]


/-- The bytes of a successful round trip, if any. -/
def okBytes (r : Except PyErr (List Nat)) : Option (List Nat) :=
  match r with
  | .ok l => Option.some l
  | .error _ => Option.none


/-! ### Constructs of the amended C1 round trip -/

deriving instance DecidableEq for Except

/-- The child node `encode_nlas` builds for a `uint16` attribute of type 1
carrying `value = v`, after `setvalue(v)`. -/
def c1childN (v : Int) : ENodeR :=
  { vals := [("value", PyVal.int v)],
    headerVals := Option.some [("length", PyVal.int 0), ("type", PyVal.int 1),
      ("value", PyVal.notInit)],
    attrs := Option.some [], valueAttr := PyVal.int v }

/-- The same child after `update_length` patched its header to 6. -/
def c1childN2 (v : Int) : ENodeR :=
  { vals := [("value", PyVal.int v)],
    headerVals := Option.some [("length", PyVal.int 6), ("type", PyVal.int 1),
      ("value", PyVal.notInit)],
    attrs := Option.some [], valueAttr := PyVal.int v }

/-- The shared buffer after the parent's field block: 16 reserved header
bytes, then `cmd=1 version=2 reserved=0`. -/
def c1buf20 : IOBuf :=
  { data := [0, 0, 0, 0, 0, 0, 0, 0, 0, 0, 0, 0, 0, 0, 0, 0, 1, 2, 0, 0], pos := 20 }

/-- The buffer after the child's field block: 4 reserved child-header
bytes, the packed `uint16` bytes and two bytes of padding. -/
def c1buf26 (b0 b1 : Nat) : IOBuf :=
  { data := [0, 0, 0, 0, 0, 0, 0, 0, 0, 0, 0, 0, 0, 0, 0, 0, 1, 2, 0, 0,
      0, 0, 0, 0, b0, b1, 0, 0], pos := 28 }

/-- The buffer after the child's `update_length` wrote `06 00 01 00`. -/
def c1buf28 (b0 b1 : Nat) : IOBuf :=
  { data := [0, 0, 0, 0, 0, 0, 0, 0, 0, 0, 0, 0, 0, 0, 0, 0, 1, 2, 0, 0,
      6, 0, 1, 0, b0, b1, 0, 0], pos := 28 }

/-- The header dict of the decoded S1 message. -/
def c1hdrVals : List (String × PyVal) :=
  [("length", PyVal.int 28), ("type", PyVal.int 16), ("flags", PyVal.int 0),
   ("sequence_number", PyVal.int 0), ("pid", PyVal.int 0)]

/-- The node decoded from `s1msg x y`, as `decode` leaves it. -/
def c1pnode (x y : Nat) : PNodeR :=
  { vals := [("cmd", PyVal.int 1), ("version", PyVal.int 2), ("reserved", PyVal.int 0)],
    headerVals := Option.some c1hdrVals,
    attrs := Option.some [[PyVal.str "CTRL_ATTR_FAMILY_ID",
      PyVal.int ((x : Int) + 256 * (y : Int))]],
    valueAttr := PyVal.notInit,
    raw := Option.some [28, 0, 0, 0, 16, 0, 0, 0, 0, 0, 0, 0, 0, 0, 0, 0,
      1, 2, 0, 0, 6, 0, 1, 0, x, y, 0, 0],
    offset := 0, length := 28 }

/-- The decoded node as `encode` sees it. -/
def c1parentN (x y : Nat) : ENodeR :=
  { vals := [("cmd", PyVal.int 1), ("version", PyVal.int 2), ("reserved", PyVal.int 0)],
    headerVals := Option.some c1hdrVals,
    attrs := Option.some [[PyVal.str "CTRL_ATTR_FAMILY_ID",
      PyVal.int ((x : Int) + 256 * (y : Int))]],
    valueAttr := PyVal.notInit }

/-- The parent after `encode_nlas` appended the encoded child object to
the attribute entry. -/
def c1parentN2 (x y : Nat) : ENodeR :=
  { vals := [("cmd", PyVal.int 1), ("version", PyVal.int 2), ("reserved", PyVal.int 0)],
    headerVals := Option.some c1hdrVals,
    attrs := Option.some [[PyVal.str "CTRL_ATTR_FAMILY_ID",
      PyVal.int ((x : Int) + 256 * (y : Int)),
      PyVal.nodeV [("value", PyVal.int ((x : Int) + 256 * (y : Int)))]
        (Option.some [("length", PyVal.int 6), ("type", PyVal.int 1),
          ("value", PyVal.notInit)])]],
    valueAttr := PyVal.notInit }

/-- A node with its header dict replaced. -/
def withHeader (n : ENodeR) (hv2 : List (String × PyVal)) : ENodeR :=
  { n with headerVals := Option.some hv2 }

/-- A node with its attribute list replaced. -/
def withAttrs (n : ENodeR) (a : List (List PyVal)) : ENodeR :=
  { n with attrs := Option.some a }

/-! ## Theorems -/

/-- Updating a dict key makes it readable: `lookupVal (setVal l k v) k = some v`. -/
theorem lookupVal_setVal_self (l : List (String × PyVal)) (k : String) (v : PyVal) :
    lookupVal (setVal l k v) k = Option.some v := by
  induction l with
  | nil => simp [setVal, lookupVal]
  | cons p rest ih =>
    by_cases h : p.1 = k
    · simp [setVal, h, lookupVal]
    · simp [setVal, h, lookupVal, ih]

/-- A completed iteration of the attribute loop advances the cursor by at
least four bytes, and only runs when the cursor is below the node's end. -/
theorem nlaStep_cont_advances (tmap : List (String × AtomTag)) (debug : Bool)
    (data : List Nat) (offset nodeLen pos : Nat) (e : Option (List PyVal)) (p' : Nat)
    (h : decodeNlasStep tmap debug data offset nodeLen pos = NlaStep.cont e p') :
    pos + 4 ≤ p' ∧ pos < offset + nodeLen := by
  unfold decodeNlasStep at h
  split at h
  · split at h
    · rename_i hlt _ _ _ _ _ _
      refine ⟨?_, hlt⟩
      injection h with h1 h2
      subst h2
      unfold NLMSG_ALIGN NLMSG_ALIGNTO
      omega
    · exact absurd h (by simp)
  · exact absurd h (by simp)

/-- With fuel exceeding the bytes left before the node's end, the
attribute loop completes. -/
theorem decodeNlasF_adequate (fuel : Nat) : ∀ (tmap : List (String × AtomTag))
    (debug : Bool) (data : List Nat) (offset nodeLen : Nat) (acc : List (List PyVal))
    (pos : Nat), offset + nodeLen - pos < fuel →
    (decodeNlasF fuel tmap debug data offset nodeLen acc pos).isSome = true := by
  induction fuel with
  | zero => intro _ _ _ _ _ _ _ h; omega
  | succ fuel ih =>
    intro tmap debug data offset nodeLen acc pos h
    unfold decodeNlasF
    cases hstep : decodeNlasStep tmap debug data offset nodeLen pos with
    | done => simp
    | fail e => simp
    | cont e p' =>
      simp only
      apply ih
      have := nlaStep_cont_advances tmap debug data offset nodeLen pos e p' hstep
      omega

/-- Claim C2: in the attribute decode loop, for every peeked attribute
header `(length, type)` at position `init` (little-endian `u16, u16` in
the four peeked bytes), the effective length is
`min(max(length, 4), node_end - init)` with `node_end = offset + length`
of the node, and after processing the attribute — decoded, recorded as
hex, or skipped as unknown, all folded into the same `cont` outcome — the
cursor is advanced to `init + NLMSG_ALIGN(effective length)`, which equals
`align4(init + effective length)` at the four-byte-aligned positions the
loop visits. -/
theorem decode_nlas_clamp_and_advance (tmap : List (String × AtomTag)) (debug : Bool)
    (data : List Nat) (offset nodeLen pos b0 b1 b2 b3 : Nat)
    (hlt : pos < offset + nodeLen)
    (hpeek : (data.drop pos).take 4 = [b0, b1, b2, b3]) :
    NlaStep.next? (decodeNlasStep tmap debug data offset nodeLen pos)
        = Option.some (pos + NLMSG_ALIGN (min (max (b0 + 256 * b1) 4) (offset + nodeLen - pos)))
      ∧ (pos % 4 = 0 →
          pos + NLMSG_ALIGN (min (max (b0 + 256 * b1) 4) (offset + nodeLen - pos))
            = NLMSG_ALIGN (pos + min (max (b0 + 256 * b1) 4) (offset + nodeLen - pos))) := by
  constructor
  · unfold decodeNlasStep
    rw [if_pos hlt, hpeek]
    rfl
  · intro hal
    unfold NLMSG_ALIGN NLMSG_ALIGNTO
    omega

/-- Witness for C2 at a concrete input: one attribute of claimed length 8
clamped by a node end 4 bytes away. -/
theorem decode_nlas_clamp_and_advance_witness :
    NlaStep.next? (decodeNlasStep [] false [8, 0, 0, 0] 0 4 0)
        = Option.some (0 + NLMSG_ALIGN (min (max (8 + 256 * 0) 4) (0 + 4 - 0)))
      ∧ (0 % 4 = 0 →
          0 + NLMSG_ALIGN (min (max (8 + 256 * 0) 4) (0 + 4 - 0))
            = NLMSG_ALIGN (0 + min (max (8 + 256 * 0) 4) (0 + 4 - 0))) :=
  decode_nlas_clamp_and_advance [] false [8, 0, 0, 0] 0 4 0 8 0 0 0 (by decide) (by decide)

/-- Claim C8: the attribute decode loop terminates on every input buffer
and every claimed attribute length.  Each completed iteration advances the
cursor by at least four bytes (lengths below 4 are clamped up to 4 before
alignment), every other outcome of an iteration ends the loop — `done`, or
the peek fault that surfaces as an nla-decode error — and consequently any
fuel exceeding the remaining byte count completes the loop. -/
theorem decode_nlas_terminates :
    (∀ (tmap : List (String × AtomTag)) (debug : Bool) (data : List Nat)
        (offset nodeLen pos : Nat) (e : Option (List PyVal)) (p' : Nat),
        decodeNlasStep tmap debug data offset nodeLen pos = NlaStep.cont e p' →
        pos + 4 ≤ p')
    ∧ (∀ (fuel : Nat) (tmap : List (String × AtomTag)) (debug : Bool) (data : List Nat)
        (offset nodeLen : Nat) (acc : List (List PyVal)) (pos : Nat),
        offset + nodeLen - pos < fuel →
        (decodeNlasF fuel tmap debug data offset nodeLen acc pos).isSome = true) :=
  ⟨fun tmap debug data offset nodeLen pos e p' h =>
      (nlaStep_cont_advances tmap debug data offset nodeLen pos e p' h).1,
   fun fuel => decodeNlasF_adequate fuel⟩

/-- Witness for C8 at a concrete input: an iteration on a corrupt
length-8 attribute in a 4-byte window advances from 0 to 4, and fuel 5
completes the loop over that window. -/
theorem decode_nlas_terminates_witness :
    (0 : Nat) + 4 ≤ 4
    ∧ (decodeNlasF 5 [] false [8, 0, 0, 0] 0 4 [] 0).isSome = true :=
  ⟨decode_nlas_terminates.1 [] false [8, 0, 0, 0] 0 4 0 Option.none 4 (by rfl),
   decode_nlas_terminates.2 5 [] false [8, 0, 0, 0] 0 4 [] 0 (by decide)⟩

/-- Claim C5: a fault inside one attribute is not promoted.  When the
peeked type is mapped but the child `decode()` raises, the loop iteration
still completes (`cont`, not `fail`: the enclosing decode does not fail),
the entry appended under the attribute's canonical name is the hex string
of the clamped-length raw bytes starting at the attribute's start (the
cursor having been rewound there first), and the cursor advances past the
clamped length as usual; when the peeked type is absent from the family's
table, no entry is appended and the cursor still advances past the clamped
length. -/
theorem decode_nlas_localized_recovery (tmap : List (String × AtomTag))
    (data : List Nat) (offset nodeLen pos b0 b1 b2 b3 : Nat)
    (hlt : pos < offset + nodeLen)
    (hpeek : (data.drop pos).take 4 = [b0, b1, b2, b3]) :
    (∀ (cls : AtomTag) (name : String) (e : PyErr),
        tLookup tmap (b2 + 256 * b3) = Option.some (cls, name) →
        atomDecode cls data pos (min (max (b0 + 256 * b1) 4) (offset + nodeLen - pos)) false
          = .error e →
        decodeNlasStep tmap false data offset nodeLen pos
          = NlaStep.cont
              (Option.some [PyVal.str name,
                PyVal.str (hexdump ((data.drop pos).take
                  (min (max (b0 + 256 * b1) 4) (offset + nodeLen - pos))))])
              (pos + NLMSG_ALIGN (min (max (b0 + 256 * b1) 4) (offset + nodeLen - pos))))
    ∧ (tLookup tmap (b2 + 256 * b3) = Option.none →
        decodeNlasStep tmap false data offset nodeLen pos
          = NlaStep.cont Option.none
              (pos + NLMSG_ALIGN (min (max (b0 + 256 * b1) 4) (offset + nodeLen - pos)))) := by
  constructor
  · intro cls name e hmap hfail
    unfold decodeNlasStep
    rw [if_pos hlt, hpeek]
    simp [hmap, hfail]
  · intro hmap
    unfold decodeNlasStep
    rw [if_pos hlt, hpeek]
    simp [hmap]

/-- Witness for C5 at a concrete input: in `ctrlEmptyAsciizMsg` the
mapped `CTRL_ATTR_FAMILY_NAME` attribute of clamped length 4 makes its
`asciiz` child decode raise, and the entry recorded is the hex string of
its four raw bytes. -/
theorem decode_nlas_localized_recovery_witness :
    decodeNlasStep ctrlmsg_nla_map false ctrlEmptyAsciizMsg 0 24 20
      = NlaStep.cont
          (Option.some [PyVal.str "CTRL_ATTR_FAMILY_NAME",
            PyVal.str (hexdump ((ctrlEmptyAsciizMsg.drop 20).take
              (min (max (4 + 256 * 0) 4) (0 + 24 - 20))))])
          (20 + NLMSG_ALIGN (min (max (4 + 256 * 0) 4) (0 + 24 - 20))) :=
  (decode_nlas_localized_recovery ctrlmsg_nla_map ctrlEmptyAsciizMsg 0 24 20 4 0 2 0
      (by decide) (by rfl)).1 .tasciiz "CTRL_ATTR_FAMILY_NAME" .dataDecodeError
    (by rfl) (by rfl)

/-- Claim C7 (the code side): decoding a `z`-field node whose payload is
empty does not succeed with the empty string — the terminator check
`self[name][-1]` indexes an empty byte string, the `IndexError` is wrapped
as `NetlinkDataDecodeError`, and the node's decode fails.  Evaluated at
the four-byte `asciiz` attribute `04 00 02 00` (header only, empty
payload). -/
theorem asciiz_empty_z_raises :
    errOf (atomDecode .tasciiz [4, 0, 2, 0] 0 4 false) = Option.some .dataDecodeError := by
  decide

/-- Claim C6: for a node with a header that decodes successfully from a
valid input — header length field at least the header's 4-byte floor and
the claimed slice inside the buffer — the recorded length is
`max(header.length, 4)` (hence the header length itself), `raw` is the
byte slice `[offset, offset + length)` of the buffer, and the header's
`length` field equals `len(raw)`. -/
theorem decode_header_raw_invariants
    (hfs flds : List (String × FmtTok)) (L0 : Nat) (data : List Nat) (pos0 : Nat)
    (hv : List (String × PyVal)) (posH : Nat) (h : Int) (r : BaseRes)
    (hhdr : decodeHeaderFields hfs data pos0 = .ok (hv, posH))
    (hlen : lookupVal hv "length" = Option.some (.int h))
    (h4 : 4 ≤ h)
    (hfit : pos0 + h.toNat ≤ data.length)
    (hdec : decodeBase (Option.some hfs) flds L0 false data pos0 = .ok r) :
    r.length = (max h 4).toNat
    ∧ r.raw = Option.some ((data.drop pos0).take h.toNat)
    ∧ r.raw.map List.length = Option.some h.toNat
    ∧ r.headerVals = Option.some hv := by
  simp only [decodeBase, hhdr, hlen] at hdec
  unfold decodeBaseFields at hdec
  have hm : (max h 4).toNat = h.toNat := by omega
  split at hdec
  · exact absurd hdec (by simp)
  · injection hdec with hdec
    subst hdec
    refine ⟨rfl, by rw [hm], ?_, by simp⟩
    rw [hm]
    simp only [List.length_take, List.length_drop, Option.map_some', Option.some.injEq]
    omega

/-- Witness for C6 at a concrete input: an 8-byte buffer whose NLA header
claims length 8. -/
theorem decode_header_raw_invariants_witness :
    c6res.length = (max (8 : Int) 4).toNat
    ∧ c6res.raw = Option.some ((c6buf.drop 0).take (8 : Int).toNat)
    ∧ c6res.raw.map List.length = Option.some (8 : Int).toNat
    ∧ c6res.headerVals = Option.some c6hv :=
  decode_header_raw_invariants nla_header_fields [] 0 c6buf 0 c6hv 4 8 c6res
    (by rfl) (by rfl) (by decide) (by decide) (by rfl)

/-- One field-loop iteration on an `s` descriptor reads exactly
`self.length - 4` bytes (clamped by the buffer end) and stores them: the
format built is `'%is' % (self.length - 4)`, with the literal 4, whatever
header class encloses the field. -/
theorem decodeFieldStep_fS (data : List Nat) (L : Nat) (st : FieldSt) (nm : String)
    (hL : 4 ≤ L) :
    decodeFieldStep data L st (nm, .fS)
      = .ok { vals := setVal st.vals nm (.bytes ((data.drop st.pos).take (L - 4))),
              pos := st.pos + ((data.drop st.pos).take (L - 4)).length } := by
  unfold decodeFieldStep
  rw [if_pos (by simp), if_neg (by omega)]
  simp

/-- Claim C4 (amended): for a node whose field block is an `s` descriptor,
the payload byte count requested during decode is `self.length - 4` — the
node length (`max(header.length, 4)`) minus the literal constant 4 — not
`header.length - header.size`.  The two agree exactly for the 4-byte NLA
header; under the 16-byte netlink header the field still consumes
`length - 4` bytes. -/
theorem decode_s_payload_from_length
    (hfs : List (String × FmtTok)) (nm : String) (L0 : Nat) (debug : Bool)
    (data : List Nat) (pos0 : Nat) (hv : List (String × PyVal)) (posH : Nat) (h : Int)
    (r : BaseRes)
    (hhdr : decodeHeaderFields hfs data pos0 = .ok (hv, posH))
    (hlen : lookupVal hv "length" = Option.some (.int h))
    (hdec : decodeBase (Option.some hfs) [(nm, .fS)] L0 debug data pos0 = .ok r) :
    r.length = (max h 4).toNat
    ∧ lookupVal r.vals nm
        = Option.some (.bytes ((data.drop posH).take (r.length - 4))) := by
  simp only [decodeBase, hhdr, hlen] at hdec
  unfold decodeBaseFields decodeFieldsLoop at hdec
  rw [decodeFieldStep_fS data _ _ nm (by omega)] at hdec
  unfold decodeFieldsLoop at hdec
  injection hdec with hdec
  subst hdec
  exact ⟨rfl, lookupVal_setVal_self _ nm _⟩

/-- Witness for the amended C4 at a concrete input: under the 16-byte
netlink header claiming length 20, the `s` field consumes 16 bytes
(`length - 4`). -/
theorem decode_s_payload_from_length_witness :
    c4res.length = (max (20 : Int) 4).toNat
    ∧ lookupVal c4res.vals "value"
        = Option.some (.bytes ((nlmsgSBuf.drop 16).take (c4res.length - 4))) :=
  decode_s_payload_from_length nlmsg_header_fields "value" 0 false nlmsgSBuf 0
    c4hv 16 20 c4res (by rfl) (by rfl) (by rfl)

/-- Counterexample to C4 as stated: under the 16-byte netlink header
(`header.size = 16`) claiming `header.length = 20`, the `s` field consumes
16 bytes, not the `header.length - header.size = 4` bytes the claim
derives. -/
theorem decode_s_nlmsg_header_counterexample :
    valueBytesOf (decodeBase (Option.some nlmsg_header_fields) [("value", .fS)] 0 false
        nlmsgSBuf 0)
      = Option.some c4payload
    ∧ c4payload.length = 20 - 4
    ∧ ¬ c4payload.length = 20 - sizeOfFields nlmsg_header_fields := by
  decide

/-- When the node has a non-empty `nla_map`, the encode stages reach the
header back-patch with `diff = 0` (the reset at line 422). -/
theorem encodeSteps_chain_diff (reserve : Nat) (flds : List (String × FmtTok))
    (nmap : List (String × AtomTag)) (n : ENodeR) (buf : IOBuf)
    (n2 : ENodeR) (diff2 : Nat) (buf4 : IOBuf)
    (h : encodeSteps reserve flds nmap n buf = .ok (n2, diff2, buf4))
    (hne : ¬ nmap = []) : diff2 = 0 := by
  unfold encodeSteps at h
  cases hfb : encodeFieldBlock reserve flds n buf with
  | error e => simp only [hfb] at h; exact absurd h (by simp)
  | ok p =>
    obtain ⟨diff, buf2⟩ := p
    simp only [hfb] at h
    rw [if_neg (by simpa using hne)] at h
    cases hat : n.attrs with
    | none => simp only [hat] at h; exact absurd h (by simp)
    | some atts =>
      simp only [hat] at h
      cases hgo : encodeNlasGo nmap atts buf2 [] with
      | error e => simp only [hgo] at h; exact absurd h (by simp)
      | ok q =>
        obtain ⟨atts', buf3⟩ := q
        simp only [hgo] at h
        injection h with h
        simp only [Prod.mk.injEq] at h
        exact h.2.1.symm

/-- When the node has an empty `nla_map` and the field block is packed,
the encode stages reach the header back-patch with `diff` equal to the
field block's alignment pad. -/
theorem encodeSteps_nochain_diff (reserve : Nat) (flds : List (String × FmtTok))
    (n : ENodeR) (buf : IOBuf) (n2 : ENodeR) (diff2 : Nat) (buf4 : IOBuf)
    (payload : List Nat)
    (h : encodeSteps reserve flds [] n buf = .ok (n2, diff2, buf4))
    (hgv : ¬ getvalueE n = Option.some PyVal.pyNone)
    (hpay : encodeFields flds n.vals = .ok payload) :
    diff2 = NLMSG_ALIGN payload.length - payload.length := by
  unfold encodeSteps at h
  cases hfb : encodeFieldBlock reserve flds n buf with
  | error e => simp only [hfb] at h; exact absurd h (by simp)
  | ok p =>
    obtain ⟨diff, buf2⟩ := p
    simp only [hfb] at h
    simp only [List.isEmpty_nil, if_true] at h
    injection h with h
    simp only [Prod.mk.injEq] at h
    unfold encodeFieldBlock at hfb
    split at hfb
    · rename_i heq
      exact absurd heq hgv
    · simp only [hpay] at hfb
      injection hfb with hfb
      simp only [Prod.mk.injEq] at hfb
      omega

/-- Claim C3 (amended): after `encode` completes for a node with a header,
the back-patched header length is `tell() - start - diff` with the `diff`
the code actually passes — which is the field-block padding only for nodes
with an empty (falsy) `nla_map`; a node that enters the attribute-chain
branch has `diff` reset to 0 first, so for it
`header.length = tell() - start` and the trailing field-block padding is
included, not excluded. -/
theorem encode_header_length_diff
    (hfs flds : List (String × FmtTok)) (nmap : List (String × AtomTag))
    (n : ENodeR) (buf : IOBuf) (n' : ENodeR) (buf' : IOBuf)
    (henc : encodeFull (Option.some hfs) flds nmap n buf = .ok (n', buf')) :
    (¬ nmap = [] → ∃ hv, n'.headerVals = Option.some hv ∧
        lookupVal hv "length" = Option.some (.int ((buf'.pos : Int) - (buf.pos : Int))))
    ∧ (∀ payload, nmap = [] → ¬ getvalueE n = Option.some PyVal.pyNone →
        encodeFields flds n.vals = .ok payload →
        ∃ hv, n'.headerVals = Option.some hv ∧
          lookupVal hv "length" = Option.some (.int ((buf'.pos : Int) - (buf.pos : Int)
            - ((NLMSG_ALIGN payload.length - payload.length : Nat) : Int)))) := by
  simp only [encodeFull] at henc
  cases hsteps : encodeSteps (sizeOfFields hfs) flds nmap n buf with
  | error e => simp only [hsteps] at henc; exact absurd henc (by simp)
  | ok t =>
    obtain ⟨n2, diff2, buf4⟩ := t
    simp only [hsteps] at henc
    unfold update_length at henc
    cases hhv : n2.headerVals with
    | none => simp only [hhv] at henc; exact absurd henc (by simp)
    | some hv0 =>
      simp only [hhv] at henc
      cases hh : encodeHeaderNode hfs
          (setVal hv0 "length"
            (.int ((buf4.pos : Int) - (buf.pos : Int) - (diff2 : Int))))
          (buf4.seekAbs buf.pos) with
      | error e => simp only [hh] at henc; exact absurd henc (by simp)
      | ok buf3 =>
        simp only [hh] at henc
        injection henc with henc
        simp only [Prod.mk.injEq] at henc
        obtain ⟨hn', hbuf'⟩ := henc
        subst hn'
        subst hbuf'
        constructor
        · intro hne
          have hdz : diff2 = 0 :=
            encodeSteps_chain_diff (sizeOfFields hfs) flds nmap n buf n2 diff2 buf4 hsteps hne
          subst hdz
          refine ⟨_, rfl, ?_⟩
          rw [lookupVal_setVal_self]
          norm_num [IOBuf.seekAbs]
        · intro payload hnil hgv hpay
          subst hnil
          have hdz : diff2 = NLMSG_ALIGN payload.length - payload.length :=
            encodeSteps_nochain_diff (sizeOfFields hfs) flds n buf n2 diff2 buf4 payload
              hsteps hgv hpay
          subst hdz
          refine ⟨_, rfl, ?_⟩
          rw [lookupVal_setVal_self]
          rfl

/-- Witness for the amended C3 at a concrete input: encoding
`chainPadNode` (one-byte field, hence three padding bytes, and an
attribute chain) back-patches `header.length` to the full
`tell() - start = 16`. -/
theorem encode_header_length_diff_witness :
    ∃ hv, c3resNode.headerVals = Option.some hv ∧
      lookupVal hv "length"
        = Option.some (.int ((c3resBuf.pos : Int) - ((IOBuf.mk [] 0).pos : Int))) :=
  (encode_header_length_diff nla_header_fields [("f", .fB)] [("A", .tuint8)]
      chainPadNode (IOBuf.mk [] 0) c3resNode c3resBuf (by rfl)).1 (by decide)

/-- Counterexample to C3 as stated: encoding `chainPadNode` writes three
field-block padding bytes (`diff = 3`) and then an attribute chain; the
claim says the padding is excluded even then, predicting
`header.length = 16 - 3 = 13`, but the code back-patches 16. -/
theorem encode_header_length_chain_pad_counterexample :
    headerLenIntOf (encodeFull (Option.some nla_header_fields) [("f", .fB)]
        [("A", .tuint8)] chainPadNode (IOBuf.mk [] 0))
      = Option.some 16
    ∧ ¬ (Option.some (16 : Int) = Option.some ((16 : Int) - 3)) := by
  decide

/-- On well-formed entries, the `get_attrs` comprehension with
`fmt = 'raw'` returns exactly the matching values in wire order. -/
theorem getAttrsGo_raw_spec (attr : String) (entries : List (List PyVal))
    (hwf : ∀ i ∈ entries, WfAttrEntry i) :
    getAttrsGo attr "raw" entries = .ok (specAttrValues entries attr) := by
  induction entries with
  | nil => rfl
  | cons i rest ih =>
    obtain ⟨nm, v, r0, rfl⟩ := hwf i (List.mem_cons_self i rest)
    have ihr := ih (fun j hj => hwf j (by simp [hj]))
    by_cases h : nm = attr
    · subst h
      simp [getAttrsGo, pyIsStrEq, fmt_map, specAttrValues, ihr]
      rfl
    · simp [getAttrsGo, pyIsStrEq, h, specAttrValues, ihr]

/-- Claim C9: `get_attrs(name)` returns the values of all matching
attribute entries in wire order (the spec-side `specAttrValues`), and
`get_attr(name)` returns the first matching value in wire order, or the
default when there is no match — so with duplicate attributes `get_attr`
yields the first and `get_attrs` all of them, in order. -/
theorem get_attr_first_get_attrs_order (entries : List (List PyVal)) (name : String)
    (d : PyVal) (hwf : ∀ i ∈ entries, WfAttrEntry i) :
    get_attrs (Option.some entries) name "raw" = .ok (specAttrValues entries name)
    ∧ get_attr (Option.some entries) name d "raw"
        = .ok ((specAttrValues entries name).headD d) := by
  have h := getAttrsGo_raw_spec name entries hwf
  refine ⟨h, ?_⟩
  simp only [get_attr, get_attrs, h]

/-- Witness for C9 at a concrete input: with two duplicate
`CTRL_ATTR_MCAST_GROUPS` entries on the wire, `get_attrs` returns both in
wire order and `get_attr` the first. -/
theorem get_attr_first_get_attrs_order_witness :
    get_attrs (Option.some s6entries) "CTRL_ATTR_MCAST_GROUPS" "raw"
        = .ok (specAttrValues s6entries "CTRL_ATTR_MCAST_GROUPS")
    ∧ get_attr (Option.some s6entries) "CTRL_ATTR_MCAST_GROUPS" PyVal.pyNone "raw"
        = .ok ((specAttrValues s6entries "CTRL_ATTR_MCAST_GROUPS").headD PyVal.pyNone) :=
  get_attr_first_get_attrs_order s6entries "CTRL_ATTR_MCAST_GROUPS" PyVal.pyNone
    (by
      intro i hi
      simp only [s6entries, List.mem_cons, List.not_mem_nil, or_false] at hi
      rcases hi with rfl | rfl | rfl
      · exact ⟨"CTRL_ATTR_MCAST_GROUPS", PyVal.str "g1", [], rfl⟩
      · exact ⟨"CTRL_ATTR_FAMILY_ID", PyVal.int 1, [], rfl⟩
      · exact ⟨"CTRL_ATTR_MCAST_GROUPS", PyVal.str "g2", [], rfl⟩)

/-- In non-debug mode, any entry appended by one attribute-loop iteration
is a two-element `[name, value]` list with a string name. -/
theorem nlaStep_entry_shape (tmap : List (String × AtomTag)) (data : List Nat)
    (offset nodeLen pos : Nat) (e : Option (List PyVal)) (p' : Nat)
    (h : decodeNlasStep tmap false data offset nodeLen pos = NlaStep.cont e p') :
    ∀ i ∈ e.toList, ∃ nm v, i = [PyVal.str nm, v] := by
  unfold decodeNlasStep at h
  split at h
  · split at h
    · rename_i b0 b1 b2 b3 _
      injection h with h1 h2
      subst h1
      cases htl : tLookup tmap (b2 + 256 * b3) with
      | none => simp [htl]
      | some p =>
        obtain ⟨cls, name⟩ := p
        simp only [htl, Bool.false_eq_true, if_false, Option.toList_some, List.mem_singleton]
        intro i hi
        subst hi
        exact ⟨name, _, rfl⟩
    · exact absurd h (by simp)
  · exact absurd h (by simp)

/-- Entries accumulated by the non-debug attribute loop are all
two-element `[name, value]` lists. -/
theorem decodeNlasF_entries_shape : ∀ (fuel : Nat) (tmap : List (String × AtomTag))
    (data : List Nat) (offset nodeLen : Nat) (acc : List (List PyVal)) (pos : Nat)
    (entries : List (List PyVal)) (p : Nat),
    (∀ i ∈ acc, ∃ nm v, i = [PyVal.str nm, v]) →
    decodeNlasF fuel tmap false data offset nodeLen acc pos
      = Option.some (.ok (entries, p)) →
    ∀ i ∈ entries, ∃ nm v, i = [PyVal.str nm, v] := by
  intro fuel
  induction fuel with
  | zero => intro _ _ _ _ _ _ _ _ _ h; exact absurd h (by simp [decodeNlasF])
  | succ fuel ih =>
    intro tmap data offset nodeLen acc pos entries p hacc h
    unfold decodeNlasF at h
    cases hstep : decodeNlasStep tmap false data offset nodeLen pos with
    | done =>
      rw [hstep] at h
      injection h with h
      injection h with h
      cases h
      exact hacc
    | fail e =>
      rw [hstep] at h
      exact absurd h (by simp)
    | cont e p' =>
      rw [hstep] at h
      refine ih tmap data offset nodeLen (acc ++ e.toList) p' entries p ?_ h
      intro i hi
      rcases List.mem_append.mp hi with hi | hi
      · exact hacc i hi
      · exact nlaStep_entry_shape tmap data offset nodeLen pos e p' hstep i hi

/-- On two-element entries, the `get_attrs` comprehension with
`fmt = 'encoded'` raises `IndexError` at the first matching entry. -/
theorem getAttrsGo_encoded_len2 (attr : String) (entries : List (List PyVal))
    (hwf : ∀ i ∈ entries, ∃ nm v, i = [PyVal.str nm, v])
    (hmatch : ¬ specAttrValues entries attr = []) :
    getAttrsGo attr "encoded" entries = .error .indexError := by
  induction entries with
  | nil => exact absurd rfl hmatch
  | cons i rest ih =>
    obtain ⟨nm, v, rfl⟩ := hwf i (List.mem_cons_self i rest)
    by_cases h : nm = attr
    · subst h
      simp [getAttrsGo, pyIsStrEq, fmt_map]
    · have ihr := ih (fun j hj => hwf j (by simp [hj]))
        (by simpa [specAttrValues, h] using hmatch)
      simp [getAttrsGo, pyIsStrEq, h, ihr]

/-- With no matching entry, the comprehension returns the empty list for
any `fmt` key — valid or not, the key is only looked up at a matching
entry. -/
theorem getAttrsGo_nomatch (attr fmt : String) (entries : List (List PyVal))
    (hwf : ∀ i ∈ entries, ∃ nm v, i = [PyVal.str nm, v])
    (hnm : specAttrValues entries attr = []) :
    getAttrsGo attr fmt entries = .ok [] := by
  induction entries with
  | nil => rfl
  | cons i rest ih =>
    obtain ⟨nm, v, rfl⟩ := hwf i (List.mem_cons_self i rest)
    by_cases h : nm = attr
    · subst h
      exact absurd hnm (by simp [specAttrValues])
    · have ihr := ih (fun j hj => hwf j (by simp [hj]))
        (by simpa [specAttrValues, h] using hnm)
      simp [getAttrsGo, pyIsStrEq, h, ihr]

/-- With an invalid `fmt` key, the comprehension either returns the empty
list (no match) or raises `KeyError` at the first match. -/
theorem getAttrsGo_badfmt (attr fmt : String) (entries : List (List PyVal))
    (hwf : ∀ i ∈ entries, ∃ nm v, i = [PyVal.str nm, v])
    (hfmt : fmt_map fmt = Option.none) :
    getAttrsGo attr fmt entries = .ok []
    ∨ getAttrsGo attr fmt entries = .error .keyError := by
  induction entries with
  | nil => exact Or.inl rfl
  | cons i rest ih =>
    obtain ⟨nm, v, rfl⟩ := hwf i (List.mem_cons_self i rest)
    by_cases h : nm = attr
    · subst h
      right
      simp [getAttrsGo, pyIsStrEq, hfmt]
    · have ihr := ih (fun j hj => hwf j (by simp [hj]))
      rcases ihr with ihr | ihr <;> simp [getAttrsGo, pyIsStrEq, h, ihr]

/-- Claim C10: entries appended by a non-debug decode are two-element
`[name, value]` lists with no encoded third element; consequently
`get_attr(name, default, 'encoded')` (and so `get_encoded`) on a matching
attribute of such a node raises `IndexError` rather than returning the
default, while the default is returned when no entry matches, or when the
`fmt` key is invalid. -/
theorem get_attr_encoded_indexerror :
    (∀ (fuel : Nat) (tmap : List (String × AtomTag)) (data : List Nat)
        (offset nodeLen pos : Nat) (entries : List (List PyVal)) (p : Nat),
        decodeNlasF fuel tmap false data offset nodeLen [] pos
          = Option.some (.ok (entries, p)) →
        ∀ i ∈ entries, i.length = 2)
    ∧ (∀ (entries : List (List PyVal)) (attr : String) (d : PyVal),
        (∀ i ∈ entries, ∃ nm v, i = [PyVal.str nm, v]) →
        ¬ specAttrValues entries attr = [] →
        get_attr (Option.some entries) attr d "encoded" = .error .indexError)
    ∧ (∀ (entries : List (List PyVal)) (attr fmt : String) (d : PyVal),
        (∀ i ∈ entries, ∃ nm v, i = [PyVal.str nm, v]) →
        specAttrValues entries attr = [] →
        get_attr (Option.some entries) attr d fmt = .ok d)
    ∧ (∀ (entries : List (List PyVal)) (attr fmt : String) (d : PyVal),
        (∀ i ∈ entries, ∃ nm v, i = [PyVal.str nm, v]) →
        fmt_map fmt = Option.none →
        get_attr (Option.some entries) attr d fmt = .ok d) := by
  refine ⟨?_, ?_, ?_, ?_⟩
  · intro fuel tmap data offset nodeLen pos entries p h i hi
    obtain ⟨nm, v, rfl⟩ :=
      decodeNlasF_entries_shape fuel tmap data offset nodeLen [] pos entries p
        (by intro j hj; exact absurd hj (List.not_mem_nil j)) h i hi
    rfl
  · intro entries attr d hwf hmatch
    simp only [get_attr, get_attrs, getAttrsGo_encoded_len2 attr entries hwf hmatch]
  · intro entries attr fmt d hwf hnm
    simp only [get_attr, get_attrs, getAttrsGo_nomatch attr fmt entries hwf hnm]
    rfl
  · intro entries attr fmt d hwf hfmt
    rcases getAttrsGo_badfmt attr fmt entries hwf hfmt with h | h <;>
      (simp only [get_attr, get_attrs, h]; try rfl)

/-- Witness for C10 at concrete inputs: the entry decoded from
`ctrlHexMsg` has two elements; on it `get_attr` with `'encoded'` raises
`IndexError` for the present attribute, while an absent attribute and an
invalid `fmt` key yield the default. -/
theorem get_attr_encoded_indexerror_witness :
    (∀ i ∈ c10entries, i.length = 2)
    ∧ get_attr (Option.some c10entries) "CTRL_ATTR_VERSION" PyVal.pyNone "encoded"
        = .error .indexError
    ∧ get_attr (Option.some c10entries) "CTRL_ATTR_HDRSIZE" PyVal.pyNone "encoded"
        = .ok PyVal.pyNone
    ∧ get_attr (Option.some c10entries) "CTRL_ATTR_VERSION" PyVal.pyNone "bogus"
        = .ok PyVal.pyNone :=
  ⟨get_attr_encoded_indexerror.1 29 ctrlmsg_nla_map ctrlHexMsg 0 28 20 c10entries 28
      (by rfl),
   get_attr_encoded_indexerror.2.1 c10entries "CTRL_ATTR_VERSION" PyVal.pyNone
      (by
        intro i hi
        simp only [c10entries, List.mem_singleton] at hi
        subst hi
        exact ⟨"CTRL_ATTR_VERSION", PyVal.str "01:02:03:04", rfl⟩)
      (fun h => List.noConfusion h),
   get_attr_encoded_indexerror.2.2.1 c10entries "CTRL_ATTR_HDRSIZE" "encoded" PyVal.pyNone
      (by
        intro i hi
        simp only [c10entries, List.mem_singleton] at hi
        subst hi
        exact ⟨"CTRL_ATTR_VERSION", PyVal.str "01:02:03:04", rfl⟩)
      (by rfl),
   get_attr_encoded_indexerror.2.2.2 c10entries "CTRL_ATTR_VERSION" "bogus" PyVal.pyNone
      (by
        intro i hi
        simp only [c10entries, List.mem_singleton] at hi
        subst hi
        exact ⟨"CTRL_ATTR_VERSION", PyVal.str "01:02:03:04", rfl⟩)
      (by decide)⟩

/-- Counterexample to C1 as stated: `ctrlHexMsg` is a well-formed
`ctrlmsg` wire message, but its `CTRL_ATTR_VERSION` attribute decodes
through the `hex` atom into a presentation string, which re-encodes as
that string's UTF-8 bytes — `encode(decode(b))` is 36 bytes, not the
original 28. -/
theorem ctrlmsg_hex_roundtrip_not_id :
    ¬ okBytes (roundTrip (Option.some nlmsg_header_fields) genlmsg_fields ctrlmsg_nla_map
        ctrlHexMsg)
      = Option.some ctrlHexMsg := by
  decide

/-! ### Symbolic characterizations of the encode stages -/

/-- `encodeHeaderNode` on a packable header dict writes the payload and
its alignment padding. -/
theorem encodeHeaderNode_spec (hfs : List (String × FmtTok)) (hv : List (String × PyVal))
    (buf : IOBuf) (payload : List Nat)
    (hpk : encodeFields hfs hv = .ok payload) :
    encodeHeaderNode hfs hv buf
      = .ok ((buf.write payload).write
          (List.replicate (NLMSG_ALIGN payload.length - payload.length) 0)) := by
  rw [encodeHeaderNode.eq_def, hpk]

/-- `update_length` on a node with a header dict: patch `length` to
`save - start - diff`, re-encode the header at `start`, restore the
cursor. -/
theorem update_length_spec (hfs : List (String × FmtTok)) (n : ENodeR)
    (start diff : Nat) (buf : IOBuf) (hv : List (String × PyVal)) (r : IOBuf)
    (hhv : n.headerVals = Option.some hv)
    (hh : encodeHeaderNode hfs
        (setVal hv "length" (.int ((buf.pos : Int) - (start : Int) - (diff : Int))))
        (buf.seekAbs start) = .ok r) :
    update_length hfs n start diff buf
      = .ok (withHeader n
          (setVal hv "length" (.int ((buf.pos : Int) - (start : Int) - (diff : Int)))),
          r.seekAbs buf.pos) := by
  rw [update_length.eq_def, hhv]
  simp only []
  rw [hh]
  rfl

/-- The field-block stage when `getvalue()` is an `int` (never `None`):
reserve, pack, write, pad. -/
theorem encodeFieldBlock_spec_int (reserve : Nat) (flds : List (String × FmtTok))
    (n : ENodeR) (buf : IOBuf) (w : Int) (payload : List Nat)
    (hgv : getvalueE n = Option.some (.int w))
    (hpk : encodeFields flds n.vals = .ok payload) :
    encodeFieldBlock reserve flds n buf
      = .ok (NLMSG_ALIGN payload.length - payload.length,
          ((buf.seekRel reserve).write payload).write
            (List.replicate (NLMSG_ALIGN payload.length - payload.length) 0)) := by
  rw [encodeFieldBlock.eq_def, hgv, hpk]

/-- The field-block stage when `getvalue()` is `None` (the node carries
only attributes): reserve, pack, write, pad. -/
theorem encodeFieldBlock_spec_none (reserve : Nat) (flds : List (String × FmtTok))
    (n : ENodeR) (buf : IOBuf) (payload : List Nat)
    (hgv : getvalueE n = Option.none)
    (hpk : encodeFields flds n.vals = .ok payload) :
    encodeFieldBlock reserve flds n buf
      = .ok (NLMSG_ALIGN payload.length - payload.length,
          ((buf.seekRel reserve).write payload).write
            (List.replicate (NLMSG_ALIGN payload.length - payload.length) 0)) := by
  rw [encodeFieldBlock.eq_def, hgv, hpk]

/-- `encodeNoNla` with a header: field block, then the header
back-patch. -/
theorem encodeNoNla_spec (hfs flds : List (String × FmtTok)) (n : ENodeR) (buf : IOBuf)
    (diff : Nat) (buf2 : IOBuf) (r : ENodeR × IOBuf)
    (hfb : encodeFieldBlock (sizeOfFields hfs) flds n buf = .ok (diff, buf2))
    (hul : update_length hfs n buf.pos diff buf2 = .ok r) :
    encodeNoNla (Option.some hfs) flds n buf = .ok r := by
  rw [encodeNoNla.eq_def]
  simp only []
  rw [hfb]
  exact hul

/-- `atomEncode`: construct the atom, `setvalue`, run the override and the
generic encode. -/
theorem atomEncode_spec (t : AtomTag) (ty : Nat) (v : PyVal) (buf : IOBuf)
    (n1 : ENodeR) (r : ENodeR × IOBuf)
    (hsv : setvalueE
        { vals := initVals (atomFields t),
          headerVals := Option.some (setVal (initVals nla_header_fields) "type" (.int ty)),
          attrs := Option.some [], valueAttr := .notInit } v = .ok n1)
    (henc : encodeNoNla (Option.some nla_header_fields) (atomFields t) (atomPre t n1) buf
        = .ok r) :
    atomEncode t ty v buf = .ok r := by
  rw [atomEncode.eq_def]
  simp only []
  rw [hsv]
  exact henc

/-- `encode_nlas` over a single mapped two-element entry: the child is
encoded and the encoded object is appended as the entry's third
element. -/
theorem encodeNlasGo_single_spec (nmap : List (String × AtomTag)) (name : String)
    (cls : AtomTag) (ty : Nat) (v : PyVal) (buf : IOBuf) (child : ENodeR) (buf' : IOBuf)
    (hrl : rLookup nmap name = Option.some (cls, ty))
    (hae : atomEncode cls ty v buf = .ok (child, buf')) :
    encodeNlasGo nmap [[.str name, v]] buf []
      = .ok ([[.str name, v, .nodeV child.vals child.headerVals]], buf') := by
  rw [encodeNlasGo.eq_def]
  simp only [List.getElem?_cons_zero, List.getElem?_cons_succ, hrl, hae,
    List.length_cons, List.length_nil]
  rw [if_pos trivial, encodeNlasGo.eq_def]
  rfl

/-- The pre-back-patch stages of `encode` for a node with a non-empty
`nla_map`: field block, `diff` reset to zero, attribute chain. -/
theorem encodeSteps_spec (reserve : Nat) (flds : List (String × FmtTok))
    (nmap : List (String × AtomTag)) (n : ENodeR) (buf : IOBuf)
    (diff : Nat) (buf2 : IOBuf) (atts atts' : List (List PyVal)) (buf3 : IOBuf)
    (hfb : encodeFieldBlock reserve flds n buf = .ok (diff, buf2))
    (hne : nmap.isEmpty = false)
    (hat : n.attrs = Option.some atts)
    (hgo : encodeNlasGo nmap atts buf2 [] = .ok (atts', buf3)) :
    encodeSteps reserve flds nmap n buf
      = .ok (withAttrs n atts', 0, buf3) := by
  rw [encodeSteps.eq_def, hfb]
  simp only []
  rw [hne]
  simp only [Bool.false_eq_true, if_false]
  rw [hat]
  simp only []
  rw [hgo]
  rfl

/-- `encode` in full for a node with a header: the stages, then the header
back-patch. -/
theorem encodeFull_spec (hfs flds : List (String × FmtTok))
    (nmap : List (String × AtomTag)) (n : ENodeR) (buf : IOBuf)
    (n2 : ENodeR) (diff2 : Nat) (buf4 : IOBuf) (r : ENodeR × IOBuf)
    (hst : encodeSteps (sizeOfFields hfs) flds nmap n buf = .ok (n2, diff2, buf4))
    (hul : update_length hfs n2 buf.pos diff2 buf4 = .ok r) :
    encodeFull (Option.some hfs) flds nmap n buf = .ok r := by
  rw [encodeFull.eq_def]
  simp only []
  rw [hst]
  exact hul

/-- `encodedBytes` through a successful `encodeFull`. -/
theorem encodedBytes_spec (hdr : Option (List (String × FmtTok)))
    (flds : List (String × FmtTok)) (nmap : List (String × AtomTag)) (n : ENodeR)
    (n' : ENodeR) (buf : IOBuf)
    (henc : encodeFull hdr flds nmap n { data := [], pos := 0 } = .ok (n', buf)) :
    encodedBytes hdr flds nmap n = .ok buf.data := by
  rw [encodedBytes.eq_def, henc]

/-- `roundTrip` through a successful decode and a successful
re-encode. -/
theorem roundTrip_spec (hdr : Option (List (String × FmtTok)))
    (flds : List (String × FmtTok)) (nmap : List (String × AtomTag)) (b : List Nat)
    (node : PNodeR) (pos2 : Nat) (out : List Nat)
    (hdec : decodeFull hdr flds nmap 0 false b 0 = .ok (node, pos2))
    (henc : encodedBytes hdr flds nmap (toENode node) = .ok out) :
    roundTrip hdr flds nmap b = .ok out := by
  rw [roundTrip.eq_def, hdec]
  exact henc

/-! ### The concrete stages on the S1-shaped message -/

/-- Decoding `s1msg x y`. -/
theorem c1decode (x y : Nat) :
    decodeFull (Option.some nlmsg_header_fields) genlmsg_fields ctrlmsg_nla_map 0 false
        (s1msg x y) 0
      = .ok (c1pnode x y, 28) := by
  simp [decodeFull, decodeBase, decodeBaseFields, decodeHeaderFields,
    decodeFieldsLoop, decodeFieldStep, initVals, setVal, stripValue, delVal, lookupVal,
    structUnpack1, leUnpack, FmtTok.calcsize, nlmsg_header_fields, genlmsg_fields,
    ctrlmsg_nla_map, nla_header_fields, s1msg, NLMSG_ALIGN, NLMSG_ALIGNTO,
    decodeNlasF, decodeNlasStep, tLookup, atomDecode, decodeNoNla, atomPost, atomFields,
    c1pnode, c1hdrVals]

/-- Packing the `uint16` value `v` yields its two little-endian bytes. -/
theorem c1pack (v : Int) (hv0 : 0 ≤ v) (hv1 : v < 65536) :
    structPack1 .fH (.int v) = .ok [v.toNat % 256, v.toNat / 256] := by
  simp only [structPack1]
  rw [if_pos ⟨hv0, hv1⟩]

/-- The child's field block packs to exactly the two packed bytes. -/
theorem c1fields (v : Int) (b0 b1 : Nat)
    (hpk : structPack1 .fH (.int v) = .ok [b0, b1]) :
    encodeFields [("value", .fH)] [("value", PyVal.int v)] = .ok [b0, b1] := by
  unfold encodeFields
  simp only [List.foldlM_cons, List.foldlM_nil]
  unfold encodeFieldStep
  simp only [lookupVal, if_true, py3Coerce]
  rw [hpk]
  rfl

/-- The child's field-block stage on the shared buffer. -/
theorem c1childBlock (v : Int) (b0 b1 : Nat)
    (hpk : structPack1 .fH (.int v) = .ok [b0, b1]) :
    encodeFieldBlock (sizeOfFields nla_header_fields) [("value", .fH)] (c1childN v) c1buf20
      = .ok (2, c1buf26 b0 b1) := by
  rw [encodeFieldBlock_spec_int (sizeOfFields nla_header_fields) [("value", .fH)]
    (c1childN v) c1buf20 v [b0, b1] rfl
    (c1fields v b0 b1 hpk)]
  norm_num [List.length_cons, List.length_nil, NLMSG_ALIGN, NLMSG_ALIGNTO]
  rfl

/-- Packing the child's patched header dict. -/
theorem c1childHdrPack :
    encodeFields nla_header_fields
        (setVal [("length", PyVal.int 0), ("type", PyVal.int 1), ("value", PyVal.notInit)]
          "length" (PyVal.int 6))
      = .ok [6, 0, 1, 0] := by
  decide

/-- The child's `update_length` on the shared buffer. -/
theorem c1childPatch (v : Int) (b0 b1 : Nat) :
    update_length nla_header_fields (c1childN v) 20 2 (c1buf26 b0 b1)
      = .ok (c1childN2 v, c1buf28 b0 b1) := by
  have harg : PyVal.int (((c1buf26 b0 b1).pos : Int) - ((20 : Nat) : Int)
        - ((2 : Nat) : Int)) = PyVal.int 6 := by
    rw [show (c1buf26 b0 b1).pos = 28 from rfl]
    norm_num
  have hh : encodeHeaderNode nla_header_fields
      (setVal [("length", PyVal.int 0), ("type", PyVal.int 1), ("value", PyVal.notInit)]
        "length" (PyVal.int (((c1buf26 b0 b1).pos : Int) - ((20 : Nat) : Int)
          - ((2 : Nat) : Int))))
      ((c1buf26 b0 b1).seekAbs 20)
      = .ok { data := (c1buf28 b0 b1).data, pos := 24 } := by
    rw [harg]
    rw [encodeHeaderNode_spec nla_header_fields _ _ [6, 0, 1, 0] c1childHdrPack]
    rfl
  rw [update_length_spec nla_header_fields (c1childN v) 20 2 (c1buf26 b0 b1)
    [("length", PyVal.int 0), ("type", PyVal.int 1), ("value", PyVal.notInit)]
    { data := (c1buf28 b0 b1).data, pos := 24 } rfl hh]
  rw [harg]
  rfl

/-- The whole child encode (`nla.encode()`) on the shared buffer. -/
theorem c1childEncode (v : Int) (b0 b1 : Nat)
    (hpk : structPack1 .fH (.int v) = .ok [b0, b1]) :
    atomEncode .tuint16 1 (.int v) c1buf20 = .ok (c1childN2 v, c1buf28 b0 b1) := by
  apply atomEncode_spec .tuint16 1 (.int v) c1buf20 (c1childN v)
  · rfl
  · exact encodeNoNla_spec nla_header_fields [("value", .fH)] (c1childN v) c1buf20
      2 (c1buf26 b0 b1) _ (c1childBlock v b0 b1 hpk) (c1childPatch v b0 b1)

/-- The parent's field-block stage on a fresh buffer. -/
theorem c1parentBlock (x y : Nat) :
    encodeFieldBlock (sizeOfFields nlmsg_header_fields) genlmsg_fields (c1parentN x y)
        { data := [], pos := 0 }
      = .ok (0, c1buf20) := by
  rw [encodeFieldBlock_spec_none (sizeOfFields nlmsg_header_fields) genlmsg_fields
    (c1parentN x y) { data := [], pos := 0 } [1, 2, 0, 0] rfl rfl]
  rfl

/-- The attribute chain of the decoded node re-encodes the child and
appends the encoded object to the entry. -/
theorem c1chain (x y : Nat)
    (hpk : structPack1 .fH (.int ((x : Int) + 256 * (y : Int))) = .ok [x, y]) :
    encodeNlasGo ctrlmsg_nla_map
        [[.str "CTRL_ATTR_FAMILY_ID", PyVal.int ((x : Int) + 256 * (y : Int))]] c1buf20 []
      = .ok ([[.str "CTRL_ATTR_FAMILY_ID", PyVal.int ((x : Int) + 256 * (y : Int)),
          .nodeV (c1childN2 ((x : Int) + 256 * (y : Int))).vals
            (c1childN2 ((x : Int) + 256 * (y : Int))).headerVals]], c1buf28 x y) :=
  encodeNlasGo_single_spec ctrlmsg_nla_map "CTRL_ATTR_FAMILY_ID" .tuint16 1
    (PyVal.int ((x : Int) + 256 * (y : Int))) c1buf20
    (c1childN2 ((x : Int) + 256 * (y : Int))) (c1buf28 x y)
    (by decide)
    (c1childEncode ((x : Int) + 256 * (y : Int)) x y hpk)

/-- Packing the parent's patched header dict. -/
theorem c1parentHdrPack :
    encodeFields nlmsg_header_fields (setVal c1hdrVals "length" (PyVal.int 28))
      = .ok [28, 0, 0, 0, 16, 0, 0, 0, 0, 0, 0, 0, 0, 0, 0, 0] := by
  decide

/-- The parent's `update_length`: the header bytes are written over the
16 reserved bytes and the resulting buffer holds exactly `s1msg x y`. -/
theorem c1parentPatch (x y : Nat) :
    update_length nlmsg_header_fields (c1parentN2 x y) 0 0 (c1buf28 x y)
      = .ok (withHeader (c1parentN2 x y) (setVal c1hdrVals "length" (PyVal.int 28)),
        { data := s1msg x y, pos := 28 }) := by
  have harg : PyVal.int (((c1buf28 x y).pos : Int) - ((0 : Nat) : Int)
        - ((0 : Nat) : Int)) = PyVal.int 28 := by
    rw [show (c1buf28 x y).pos = 28 from rfl]
    norm_num
  have hh : encodeHeaderNode nlmsg_header_fields
      (setVal c1hdrVals "length" (PyVal.int (((c1buf28 x y).pos : Int)
        - ((0 : Nat) : Int) - ((0 : Nat) : Int))))
      ((c1buf28 x y).seekAbs 0)
      = .ok { data := s1msg x y, pos := 16 } := by
    rw [harg]
    rw [encodeHeaderNode_spec nlmsg_header_fields _ _
      [28, 0, 0, 0, 16, 0, 0, 0, 0, 0, 0, 0, 0, 0, 0, 0] c1parentHdrPack]
    rfl
  rw [update_length_spec nlmsg_header_fields (c1parentN2 x y) 0 0 (c1buf28 x y)
    c1hdrVals { data := s1msg x y, pos := 16 } rfl hh]
  rw [harg]
  rfl

/-- Claim C1 (amended): the S1-shaped `ctrlmsg` message — netlink header,
generic header `cmd=1 version=2`, one `CTRL_ATTR_FAMILY_ID` (`uint16`)
attribute with payload bytes `x`, `y` — decodes and re-encodes to exactly
the original bytes: on this schema-conformant shape the round-trip
`encode(decode(b)) = b` holds.  (It is not an identity for every
well-formed message: hex-coded attributes re-encode differently.) -/
theorem ctrlmsg_uint16_roundtrip (x y : Nat) (hx : x < 256) (hy : y < 256) :
    roundTrip (Option.some nlmsg_header_fields) genlmsg_fields ctrlmsg_nla_map (s1msg x y)
      = .ok (s1msg x y) := by
  have htn : ((x : Int) + 256 * (y : Int)).toNat = x + 256 * y := by omega
  have hpk : structPack1 .fH (.int ((x : Int) + 256 * (y : Int))) = .ok [x, y] := by
    rw [c1pack ((x : Int) + 256 * (y : Int)) (by omega) (by omega), htn]
    have h1 : (x + 256 * y) % 256 = x := by omega
    have h2 : (x + 256 * y) / 256 = y := by omega
    rw [h1, h2]
  apply roundTrip_spec _ _ _ _ (c1pnode x y) 28 _ (c1decode x y)
  apply encodedBytes_spec _ _ _ _
    (withHeader (c1parentN2 x y) (setVal c1hdrVals "length" (PyVal.int 28)))
    { data := s1msg x y, pos := 28 }
  apply encodeFull_spec nlmsg_header_fields genlmsg_fields ctrlmsg_nla_map
    (toENode (c1pnode x y)) { data := [], pos := 0 } (c1parentN2 x y) 0 (c1buf28 x y)
  · have hconv : toENode (c1pnode x y) = c1parentN x y := rfl
    rw [hconv]
    have hsteps := encodeSteps_spec (sizeOfFields nlmsg_header_fields) genlmsg_fields
      ctrlmsg_nla_map (c1parentN x y) { data := [], pos := 0 } 0 c1buf20
      [[.str "CTRL_ATTR_FAMILY_ID", PyVal.int ((x : Int) + 256 * (y : Int))]]
      [[.str "CTRL_ATTR_FAMILY_ID", PyVal.int ((x : Int) + 256 * (y : Int)),
        .nodeV (c1childN2 ((x : Int) + 256 * (y : Int))).vals
          (c1childN2 ((x : Int) + 256 * (y : Int))).headerVals]]
      (c1buf28 x y) (c1parentBlock x y) (by decide) rfl (c1chain x y hpk)
    rw [hsteps]
    rfl
  · exact c1parentPatch x y

/-- Witness for the amended C1 at a concrete input: the family-id payload
`01 00`. -/
theorem ctrlmsg_uint16_roundtrip_witness :
    roundTrip (Option.some nlmsg_header_fields) genlmsg_fields ctrlmsg_nla_map (s1msg 1 0)
      = .ok (s1msg 1 0) :=
  ctrlmsg_uint16_roundtrip 1 0 (by decide) (by decide)
